import Mathlib

/-!
Verification development for the rogue combat-simulation engine
(`src/index.ts`).  The simulation core is shallowly embedded: the mutable
`RogueState` of the `RogueSimulator` class together with its configuration,
the unseeded random source (modelled as an explicit stream of draws in
`[0,1)` consumed in program order) and the UI log (modelled as a counter)
form one `Sim` record, and every engine method becomes a function
`Sim → Sim` (or returns a value next to the new state).  Effect callbacks,
which in the source are closures stored inside buff/debuff records, are
deep-embedded by the inductive types `PrimCb` (the `onApply`/`onExpire`
shapes occurring in the source: modifier installation/removal and
sequencing) and `TickCb` (the `onTick` shapes: energy refill and
damage-over-time).  Machine numbers are modelled as rationals; JavaScript
`Math.round` is `roundJS`.  DOM/audio/canvas rendering, session comparison
records and persistence are presentation-side and outside the model.
-/

unseal Rat.add Rat.sub Rat.mul Rat.inv

namespace PVE

/-- JavaScript `Math.round`: round half toward positive infinity. -/
def roundJS (x : ℚ) : ℤ := Rat.floor (x + 1/2)

/-- JS `Map.get`: first binding of the key in the insertion-ordered list. -/
def getA {α : Type} (k : String) (m : List (String × α)) : Option α :=
  (m.find? (fun p => p.1 == k)).map (fun p => p.2)

/-- JS `Map.has`. -/
def hasA {α : Type} (k : String) (m : List (String × α)) : Bool :=
  m.any (fun p => p.1 == k)

/-- JS `Map.set`: overwrite in place when the key is present, else append. -/
def setA {α : Type} (k : String) (v : α) (m : List (String × α)) : List (String × α) :=
  if hasA k m then m.map (fun p => if p.1 == k then (k, v) else p) else m ++ [(k, v)]

/-- JS `Map.delete`. -/
def delA {α : Type} (k : String) (m : List (String × α)) : List (String × α) :=
  m.filter (fun p => p.1 != k)

/-- The five modifier channels of `RogueState.modifiers`. -/
inductive Chan : Type
  | autoSpeed
  | energyRegen
  | damage
  | critChance
  | cooldownRate
deriving DecidableEq

/-- The named-bucket store behind `RogueState.modifiers`. -/
structure Mods where
  autoSpeed : List (String × ℚ)
  energyRegen : List (String × ℚ)
  damage : List (String × ℚ)
  critChance : List (String × ℚ)
  cooldownRate : List (String × ℚ)
deriving DecidableEq

def Mods.get (m : Mods) : Chan → List (String × ℚ)
  | .autoSpeed => m.autoSpeed
  | .energyRegen => m.energyRegen
  | .damage => m.damage
  | .critChance => m.critChance
  | .cooldownRate => m.cooldownRate

def Mods.set (m : Mods) : Chan → List (String × ℚ) → Mods
  | .autoSpeed, l => {m with autoSpeed := l}
  | .energyRegen, l => {m with energyRegen := l}
  | .damage, l => {m with damage := l}
  | .critChance, l => {m with critChance := l}
  | .cooldownRate, l => {m with cooldownRate := l}

/-- `onApply`/`onExpire` callback shapes found in the source: no-op,
`sim.addModifier(...)`, `sim.removeModifier(...)` and sequencing (as in the
Blade Flurry buff which installs two modifiers). -/
inductive PrimCb : Type
  | nop
  | addMod (ch : Chan) (key : String) (value : ℚ)
  | removeMod (ch : Chan) (key : String)
  | seq (a b : PrimCb)
deriving DecidableEq

/-- `onTick` callback shapes found in the source: absent, `sim.refillEnergy`
(Shadow Focus) and `sim.applyDamage(amount, {ability, isDot: true})`
(Rupture). -/
inductive TickCb : Type
  | nop
  | refill (amount : ℚ)
  | dot (amount : ℚ) (abilityName : String)
deriving DecidableEq

/-- An active buff/debuff record (display name and icon omitted: they feed
only log strings and rendering). -/
structure Effect where
  id : String
  duration : ℚ
  remaining : ℚ := 0
  tickInterval : Option ℚ := none
  tickProgress : ℚ := 0
  onApply : PrimCb := .nop
  onExpire : PrimCb := .nop
  onTick : TickCb := .nop
  armorReduction : Option ℚ := none
deriving DecidableEq

/-- `RogueConfig.stats`. -/
structure StatsCfg where
  attackPower : ℚ
  weaponMin : ℚ
  weaponMax : ℚ
  critChance : ℚ
  hitChance : ℚ
deriving DecidableEq

/-- `RogueConfig.regen`. -/
structure RegenCfg where
  tickInterval : ℚ
  energyPerTick : ℚ
  talentBonus : ℚ
  maxEnergy : ℚ
deriving DecidableEq

/-- `RogueConfig.talents`. -/
structure Talents where
  precisionStrikes : Bool
  relentlessStrikes : Bool
  shadowTechniques : Bool
deriving DecidableEq

/-- Runtime configuration of the `energySurge` proc (post-sanitisation,
hence typed numbers). -/
structure EsCfg where
  enabled : Bool
  chance : ℚ
  energyGain : ℚ
deriving DecidableEq

/-- Runtime configuration of the `flurryStrike` proc. -/
structure FsCfg where
  enabled : Bool
  chance : ℚ
  hastePercent : ℚ
  duration : ℚ
deriving DecidableEq

/-- Runtime configuration of the `overpoweringStrikes` proc. -/
structure OsCfg where
  enabled : Bool
  chance : ℚ
  damagePercent : ℚ
  duration : ℚ
deriving DecidableEq

/-- Runtime configuration of the `criticalInsight` proc. -/
structure CiCfg where
  enabled : Bool
  chance : ℚ
  critPercent : ℚ
  duration : ℚ
deriving DecidableEq

/-- Runtime configuration of the `shadowRecovery` proc. -/
structure SrCfg where
  enabled : Bool
  chance : ℚ
  energyGain : ℚ
  cooldownRatePercent : ℚ
  duration : ℚ
deriving DecidableEq

/-- Per-proc runtime configuration, in `PROC_DEFINITIONS` order. -/
structure ProcsCfg where
  energySurge : EsCfg
  flurryStrike : FsCfg
  overpoweringStrikes : OsCfg
  criticalInsight : CiCfg
  shadowRecovery : SrCfg
deriving DecidableEq

/-- `RogueConfig` (the `general` block holds only the GCD duration). -/
structure Config where
  stats : StatsCfg
  regen : RegenCfg
  globalCooldown : ℚ
  talents : Talents
  procs : ProcsCfg
deriving DecidableEq

/-- `RogueState.stats` (per-ability usage keyed by ability display name,
value = (count, damage); DPS history entries are (time, dps) pairs). -/
structure Stats where
  totalDamage : ℤ
  hitCount : ℕ
  critCount : ℕ
  combatTime : ℚ
  dpsHistory : List (ℚ × ℚ)
  abilityUsage : List (String × ℕ × ℤ)
deriving DecidableEq

/-- The full simulator: `RogueState` fields (flattened), the configuration,
the random stream with its consumption index, and the count of log entries
emitted through `ui.addLogEntry`. -/
structure Sim where
  inCombat : Bool
  energy : ℚ
  maxEnergy : ℚ
  comboPoints : ℚ
  maxComboPoints : ℚ
  globalCooldown : ℚ
  dummyMaxHealth : ℚ
  dummyHealth : ℚ
  autoAttackTimer : ℚ
  baseAutoSpeed : ℚ
  energyTickProgress : ℚ
  modifiers : Mods
  buffs : List (String × Effect)
  debuffs : List (String × Effect)
  cooldowns : List (String × ℚ)
  stats : Stats
  config : Config
  draws : ℕ → ℚ
  rngIdx : ℕ
  logCount : ℕ

/-- `ui.addLogEntry` (message text is presentation-side; we count entries). -/
def addLog (s : Sim) : Sim := {s with logCount := s.logCount + 1}

/-- One `Math.random()` call: the next draw of the stream. -/
def nextRand (s : Sim) : ℚ × Sim := (s.draws s.rngIdx, {s with rngIdx := s.rngIdx + 1})

/-- `RogueSimulator.spendEnergy`. -/
def spendEnergy (amount : ℚ) (s : Sim) : Sim :=
  {s with energy := max 0 (s.energy - amount)}

/-- `RogueSimulator.refundEnergy`. -/
def refundEnergy (amount : ℚ) (s : Sim) : Sim :=
  {s with energy := min s.maxEnergy (s.energy + amount)}

/-- `RogueSimulator.refillEnergy` (logs when the cap is newly reached). -/
def refillEnergy (amount : ℚ) (s : Sim) : Sim :=
  let before := s.energy
  let s := {s with energy := min s.maxEnergy (s.energy + amount)}
  if before < s.energy ∧ s.energy = s.maxEnergy then addLog s else s

/-- `RogueSimulator.addComboPoints`. -/
def addComboPoints (amount : ℚ) (s : Sim) : Sim :=
  {s with comboPoints := min s.maxComboPoints (s.comboPoints + amount)}

/-- `RogueSimulator.consumeComboPoints`. -/
def consumeComboPoints (amount : ℚ) (s : Sim) : Sim :=
  {s with comboPoints := max 0 (s.comboPoints - amount)}

/-- `RogueSimulator.addModifier`. -/
def addModifier (ch : Chan) (key : String) (value : ℚ) (s : Sim) : Sim :=
  {s with modifiers := s.modifiers.set ch (setA key value (s.modifiers.get ch))}

/-- `RogueSimulator.removeModifier`. -/
def removeModifier (ch : Chan) (key : String) (s : Sim) : Sim :=
  {s with modifiers := s.modifiers.set ch (delA key (s.modifiers.get ch))}

/-- `RogueSimulator.getModifierTotal`. -/
def modTotal (ch : Chan) (s : Sim) : ℚ :=
  ((s.modifiers.get ch).map (fun p => p.2)).sum

/-- `RogueSimulator.getAutoSpeedMultiplier`. -/
def getAutoSpeedMultiplier (s : Sim) : ℚ := max (1/10) (1 + modTotal .autoSpeed s)

/-- `RogueSimulator.getEnergyRegenMultiplier`. -/
def getEnergyRegenMultiplier (s : Sim) : ℚ := max 0 (1 + modTotal .energyRegen s)

/-- `RogueSimulator.getDamageMultiplier`. -/
def getDamageMultiplier (s : Sim) : ℚ := max 0 (1 + modTotal .damage s)

/-- `RogueSimulator.getCritChanceBonus`. -/
def getCritChanceBonus (s : Sim) : ℚ := modTotal .critChance s

/-- `RogueSimulator.getCooldownRateMultiplier`. -/
def getCooldownRateMultiplier (s : Sim) : ℚ := max 0 (1 + modTotal .cooldownRate s)

/-- Interpreter for the deep-embedded `onApply`/`onExpire` callbacks. -/
def runPrim : PrimCb → Sim → Sim
  | .nop, s => s
  | .addMod ch k v, s => addModifier ch k v s
  | .removeMod ch k, s => removeModifier ch k s
  | .seq a b, s => runPrim b (runPrim a s)

/-- `RogueSimulator.applyBuff`: when the id is already present the old
instance's `onExpire` runs first, then the new instance (with
`remaining = duration`) replaces it and its `onApply` runs. -/
def applyBuffE (b : Effect) (s : Sim) : Sim :=
  let s := match getA b.id s.buffs with
    | some old => runPrim old.onExpire s
    | none => s
  let enriched := {b with remaining := b.duration}
  let s := {s with buffs := setA b.id enriched s.buffs}
  runPrim enriched.onApply s

/-- `RogueSimulator.applyDebuff` (same discipline on the debuff map). -/
def applyDebuffE (d : Effect) (s : Sim) : Sim :=
  let s := match getA d.id s.debuffs with
    | some old => runPrim old.onExpire s
    | none => s
  let enriched := {d with remaining := d.duration}
  let s := {s with debuffs := setA d.id enriched s.debuffs}
  runPrim enriched.onApply s

/-- `RogueSimulator.removeBuff`. -/
def removeBuff (id : String) (s : Sim) : Sim :=
  match getA id s.buffs with
  | some e =>
    let s := runPrim e.onExpire s
    {s with buffs := delA id s.buffs}
  | none => s

/-- `RogueSimulator.clearEffects`: run every `onExpire`, then clear both
effect maps and all five modifier buckets outright. -/
def clearEffects (s : Sim) : Sim :=
  let s := s.buffs.foldl (fun s p => runPrim p.2.onExpire s) s
  let s := s.debuffs.foldl (fun s p => runPrim p.2.onExpire s) s
  {s with buffs := [], debuffs := [], modifiers := ⟨[], [], [], [], []⟩}

/-- `RogueSimulator.getCurrentDps`. -/
def getCurrentDps (s : Sim) : ℚ := (s.stats.totalDamage : ℚ) / max s.stats.combatTime 1

/-- `RogueSimulator.stopCombat` (session-comparison records are
presentation-side and not modelled; no external target is bound, so the
internal dummy is restored). -/
def stopCombat (s : Sim) : Sim :=
  if !s.inCombat then s else
  let s := {s with inCombat := false, globalCooldown := 0}
  let s := clearEffects s
  let s := addLog s
  {s with dummyHealth := s.dummyMaxHealth}

/-- `RogueSimulator.startCombat`. -/
def startCombat (s : Sim) : Sim :=
  if s.inCombat then s else
  let s := {s with
    inCombat := true,
    cooldowns := [],
    stats := ⟨0, 0, 0, 0, [], []⟩,
    comboPoints := 0}
  let s := {s with
    energy := s.maxEnergy,
    dummyHealth := s.dummyMaxHealth,
    autoAttackTimer := s.baseAutoSpeed,
    energyTickProgress := 0}
  addLog s

/-- `RogueSimulator.triggerGlobalCooldown`. -/
def triggerGlobalCooldown (s : Sim) : Sim :=
  {s with globalCooldown := s.config.globalCooldown}

/-- `RogueSimulator.setCooldown`. -/
def setCooldown (id : String) (duration : ℚ) (s : Sim) : Sim :=
  {s with cooldowns := setA id duration s.cooldowns}

/-- `RogueSimulator.updateCooldowns`: each entry decays by
`delta * cooldownRateMultiplier`; entries reaching `≤ 0` are removed. -/
def updateCooldowns (delta : ℚ) (s : Sim) : Sim :=
  let rate := getCooldownRateMultiplier s
  {s with cooldowns := s.cooldowns.filterMap (fun p =>
    let next := p.2 - delta * rate
    if next ≤ 0 then none else some (p.1, next))}

/-- `RogueSimulator.incrementAbilityUsage`. -/
def incrementAbilityUsage (name : String) (damage : ℤ) (s : Sim) : Sim :=
  let u := (getA name s.stats.abilityUsage).getD (0, 0)
  {s with stats := {s.stats with
    abilityUsage := setA name (u.1 + 1, u.2 + damage) s.stats.abilityUsage}}

/-- The context record passed to `applyDamage` / `ProcSystem.handleEvent`
(the ability reference is reduced to its display name, which is all the
engine reads from it). -/
structure DmgCtx where
  abilityName : Option String := none
  isCrit : Bool := false
  isAuto : Bool := false
  isDot : Bool := false
deriving DecidableEq

/-- The buff installed by the `flurryStrike` proc trigger. -/
def flurryStrikeBuff (haste duration : ℚ) : Effect where
  id := "proc_flurryStrike"
  duration := duration
  onApply := .addMod .autoSpeed "proc_flurryStrike" haste
  onExpire := .removeMod .autoSpeed "proc_flurryStrike"

/-- The buff installed by the `overpoweringStrikes` proc trigger. -/
def overpoweringStrikesBuff (bonus duration : ℚ) : Effect where
  id := "proc_overpoweringStrikes"
  duration := duration
  onApply := .addMod .damage "proc_overpoweringStrikes" bonus
  onExpire := .removeMod .damage "proc_overpoweringStrikes"

/-- The buff installed by the `criticalInsight` proc trigger. -/
def criticalInsightBuff (crit duration : ℚ) : Effect where
  id := "proc_criticalInsight"
  duration := duration
  onApply := .addMod .critChance "proc_criticalInsight" crit
  onExpire := .removeMod .critChance "proc_criticalInsight"

/-- The buff installed by the `shadowRecovery` proc trigger. -/
def shadowRecoveryBuff (rate duration : ℚ) : Effect where
  id := "proc_shadowRecovery"
  duration := duration
  onApply := .addMod .cooldownRate "proc_shadowRecovery" rate
  onExpire := .removeMod .cooldownRate "proc_shadowRecovery"

/-- `onTrigger` of the `energySurge` proc definition. -/
def energySurgeTrigger (s : Sim) : Sim :=
  let energy := max 0 s.config.procs.energySurge.energyGain
  if energy > 0 then refillEnergy energy s else s

/-- `onTrigger` of the `flurryStrike` proc definition. -/
def flurryStrikeTrigger (s : Sim) : Sim :=
  let duration := max 0 s.config.procs.flurryStrike.duration
  let haste := s.config.procs.flurryStrike.hastePercent / 100
  if duration ≤ 0 ∨ haste ≤ 0 then s else
  applyBuffE (flurryStrikeBuff haste duration) s

/-- `onTrigger` of the `overpoweringStrikes` proc definition. -/
def overpoweringStrikesTrigger (s : Sim) : Sim :=
  let duration := max 0 s.config.procs.overpoweringStrikes.duration
  let bonus := s.config.procs.overpoweringStrikes.damagePercent / 100
  if duration ≤ 0 ∨ bonus ≤ 0 then s else
  applyBuffE (overpoweringStrikesBuff bonus duration) s

/-- `onTrigger` of the `criticalInsight` proc definition. -/
def criticalInsightTrigger (s : Sim) : Sim :=
  let duration := max 0 s.config.procs.criticalInsight.duration
  let crit := s.config.procs.criticalInsight.critPercent
  if duration ≤ 0 ∨ crit ≤ 0 then s else
  applyBuffE (criticalInsightBuff crit duration) s

/-- `onTrigger` of the `shadowRecovery` proc definition. -/
def shadowRecoveryTrigger (s : Sim) : Sim :=
  let energy := max 0 s.config.procs.shadowRecovery.energyGain
  let s := if energy > 0 then refillEnergy energy s else s
  let duration := max 0 s.config.procs.shadowRecovery.duration
  let rate := s.config.procs.shadowRecovery.cooldownRatePercent / 100
  if duration > 0 ∧ rate > 0 then
    applyBuffE (shadowRecoveryBuff rate duration) s
  else s

/-- One iteration of `ProcSystem.handleEvent`: gate on `enabled`, the
definition's condition and a positive chance, then spend one uniform draw;
on success run the trigger and emit the log entry (the floating text is
presentation-side). -/
def procRoll (enabled cond : Bool) (chance : ℚ) (trigger : Sim → Sim) (s : Sim) : Sim :=
  if !enabled then s else
  if !cond then s else
  if chance ≤ 0 then s else
  let (u, s) := nextRand s
  if u * 100 > chance then s else
  addLog (trigger s)

/-- `ProcSystem.handleEvent`: every definition's event set is `['damage']`;
the five definitions are evaluated independently in declaration order. -/
def handleEvent (event : String) (ctx : DmgCtx) (s : Sim) : Sim :=
  if event != "damage" then s else
  let s := procRoll s.config.procs.energySurge.enabled (!ctx.isDot)
    s.config.procs.energySurge.chance energySurgeTrigger s
  let s := procRoll s.config.procs.flurryStrike.enabled (ctx.isCrit && !ctx.isDot)
    s.config.procs.flurryStrike.chance flurryStrikeTrigger s
  let s := procRoll s.config.procs.overpoweringStrikes.enabled (!ctx.isAuto && !ctx.isDot)
    s.config.procs.overpoweringStrikes.chance overpoweringStrikesTrigger s
  let s := procRoll s.config.procs.criticalInsight.enabled (!ctx.isDot)
    s.config.procs.criticalInsight.chance criticalInsightTrigger s
  procRoll s.config.procs.shadowRecovery.enabled (!ctx.isAuto && !ctx.isDot)
    s.config.procs.shadowRecovery.chance shadowRecoveryTrigger s

/-- `RogueSimulator.applyDamage` (no external target bound: the internal
dummy tracks health and auto-resets on defeat). -/
def applyDamage (amount : ℚ) (ctx : DmgCtx) (s : Sim) : Sim :=
  let damage := roundJS amount
  if damage ≤ 0 then s else
  let s := {s with dummyHealth := max 0 (s.dummyHealth - (damage : ℚ))}
  let s := {s with stats := {s.stats with
    totalDamage := s.stats.totalDamage + damage,
    hitCount := s.stats.hitCount + 1,
    critCount := s.stats.critCount + (if ctx.isCrit then 1 else 0)}}
  let s := addLog s
  let s := match ctx.abilityName with
    | some nm => incrementAbilityUsage nm damage s
    | none => s
  let s := handleEvent "damage" ctx s
  if s.dummyHealth ≤ 0 then
    let s := addLog s
    let s := stopCombat s
    {s with dummyHealth := s.dummyMaxHealth}
  else s

/-- `RogueSimulator.rollWeaponDamage`: reversed weapon bounds are swapped;
the draw is consumed only when the span is positive. -/
def rollWeaponDamage (multiplier : ℚ) (s : Sim) : ℚ × Sim :=
  let lower := min s.config.stats.weaponMin s.config.stats.weaponMax
  let upper := max s.config.stats.weaponMin s.config.stats.weaponMax
  let span := upper - lower
  if span ≤ 0 then (lower * multiplier, s)
  else
    let (u, s) := nextRand s
    ((lower + u * span) * multiplier, s)

/-- `RogueSimulator.getAttackPowerContribution`. -/
def getAttackPowerContribution (scaling : ℚ) (s : Sim) : ℚ :=
  s.config.stats.attackPower / 14 * scaling

/-- `RogueSimulator.getTalentHitBonus`. -/
def getTalentHitBonus (s : Sim) : ℚ :=
  if s.config.talents.precisionStrikes then 3 else 0

/-- `RogueSimulator.rollHit`. -/
def rollHit (s : Sim) : Bool × Sim :=
  let bonus := getTalentHitBonus s
  let hitChance := min (max (s.config.stats.hitChance + bonus) 0) 100 / 100
  let (u, s) := nextRand s
  (decide (u ≤ hitChance), s)

/-- `RogueSimulator.rollCrit`. -/
def rollCrit (chance : ℚ) (s : Sim) : Bool × Sim :=
  let total := min (max (chance + getCritChanceBonus s) 0) 100 / 100
  let (u, s) := nextRand s
  (decide (u ≤ total), s)

/-- `RogueSimulator.applyDamageModifiers`: armor reduction (when the
`exposeArmor` debuff carries a non-zero `armorReduction`), then crit
doubling, then the global damage multiplier. -/
def applyDamageModifiers (baseDamage : ℚ) (isCrit : Bool) (s : Sim) : ℚ :=
  let damage := baseDamage
  let damage := match getA "exposeArmor" s.debuffs with
    | some e =>
      match e.armorReduction with
      | some a => if a ≠ 0 then damage * (1 + a) else damage
      | none => damage
    | none => damage
  let damage := if isCrit then damage * 2 else damage
  damage * getDamageMultiplier s

/-- `RogueSimulator.performWhiteDamage`. -/
def performWhiteDamage (baseDamage : ℚ) (s : Sim) : Sim :=
  let (hit, s) := rollHit s
  if !hit then addLog s else
  let (isCrit, s) := rollCrit s.config.stats.critChance s
  let damage := applyDamageModifiers baseDamage isCrit s
  let s := applyDamage damage {abilityName := some "Auto Attack", isCrit := isCrit, isAuto := true} s
  if s.config.talents.shadowTechniques then
    let (u, s) := nextRand s
    if u ≤ 3/10 then addLog (addComboPoints 1 s) else s
  else s

/-- `RogueSimulator.onComboPointsSpent` (Relentless Strikes refund). -/
def onComboPointsSpent (amount : ℚ) (s : Sim) : Sim :=
  if amount = 0 then s else
  if s.config.talents.relentlessStrikes then
    let refund := roundJS (8 + amount * 3)
    if refund > 0 then addLog (refillEnergy (refund : ℚ) s) else s
  else s

/-- Argument record of `RogueSimulator.performYellowDamage`. -/
structure YellowArgs where
  abilityName : String
  baseDamage : ℚ
  comboPointsGenerated : ℚ := 0
  comboPointsSpent : ℚ := 0
  critBonus : ℚ := 0

/-- `RogueSimulator.performYellowDamage`. -/
def performYellowDamage (args : YellowArgs) (s : Sim) : Bool × Sim :=
  let (hit, s) := rollHit s
  if !hit then (false, addLog s) else
  let critChance := s.config.stats.critChance + args.critBonus
  let isFinisher := decide (args.comboPointsSpent > 0)
  let critChance := if isFinisher && s.config.talents.precisionStrikes
    then critChance + 5 else critChance
  let (isCrit, s) := rollCrit critChance s
  let damage := applyDamageModifiers args.baseDamage isCrit s
  let damage := if isFinisher && s.config.talents.precisionStrikes
    then damage * (108/100) else damage
  let s := applyDamage damage {abilityName := some args.abilityName, isCrit := isCrit} s
  let s := if args.comboPointsGenerated ≠ 0 then addComboPoints args.comboPointsGenerated s else s
  let s := if args.comboPointsSpent ≠ 0 then
      onComboPointsSpent args.comboPointsSpent (consumeComboPoints args.comboPointsSpent s)
    else s
  (true, s)

/-- Interpreter for the deep-embedded `onTick` callbacks. -/
def runTick : TickCb → Sim → Sim
  | .nop, s => s
  | .refill a, s => refillEnergy a s
  | .dot amt nm, s => applyDamage amt {abilityName := some nm, isDot := true} s

/-- The per-effect part of one iteration of `updateBuffs.updateMap`:
decrement `remaining`; when a (truthy) `tickInterval` is declared,
accumulate `tickProgress` and report whether the single `if`-guarded tick
fired (one interval is subtracted on fire).  Returns the mutated effect and
the fire flag. -/
def effectStep (delta : ℚ) (e : Effect) : Effect × Bool :=
  let e := {e with remaining := e.remaining - delta}
  match e.tickInterval with
  | some i =>
    if i ≠ 0 then
      let p := e.tickProgress + delta
      if p ≥ i then ({e with tickProgress := p - i}, true)
      else ({e with tickProgress := p}, false)
    else (e, false)
  | none => (e, false)

/-- One iteration of `updateBuffs.updateMap` over the buff map: run the
effect step, fire `onTick` if due, then either expire (run `onExpire`,
delete, log the fade) or store the mutated effect back. -/
def stepBuffEntry (delta : ℚ) (s : Sim) (entry : String × Effect) : Sim :=
  let (e, fired) := effectStep delta entry.2
  let s := if fired then runTick e.onTick s else s
  if e.remaining ≤ 0 then
    let s := runPrim e.onExpire s
    addLog {s with buffs := delA entry.1 s.buffs}
  else {s with buffs := setA entry.1 e s.buffs}

/-- One iteration of `updateBuffs.updateMap` over the debuff map. -/
def stepDebuffEntry (delta : ℚ) (s : Sim) (entry : String × Effect) : Sim :=
  let (e, fired) := effectStep delta entry.2
  let s := if fired then runTick e.onTick s else s
  if e.remaining ≤ 0 then
    let s := runPrim e.onExpire s
    addLog {s with debuffs := delA entry.1 s.debuffs}
  else {s with debuffs := setA entry.1 e s.debuffs}

/-- `RogueSimulator.updateBuffs`: iterate over a snapshot of the buff map,
then over a snapshot of the (possibly updated) debuff map. -/
def updateBuffs (delta : ℚ) (s : Sim) : Sim :=
  let s := s.buffs.foldl (stepBuffEntry delta) s
  s.debuffs.foldl (stepDebuffEntry delta) s

/-- The `while (energyTickProgress >= tickInterval)` loop of
`RogueSimulator.handleEnergy`, with explicit iteration fuel. -/
def regenLoop (tickInterval gain : ℚ) : ℕ → Sim → Sim
  | 0, s => s
  | fuel + 1, s =>
    if s.energyTickProgress ≥ tickInterval then
      regenLoop tickInterval gain fuel
        (refillEnergy gain {s with energyTickProgress := s.energyTickProgress - tickInterval})
    else s

/-- `RogueSimulator.handleEnergy`.  The source loop terminates only for
positive tick intervals (the configuration boundary floors the interval at
0.1s); the fuel `⌈progress / tickInterval⌉` makes the loop run to
completion exactly in that case. -/
def handleEnergy (delta : ℚ) (s : Sim) : Sim :=
  let regenPerTick := s.config.regen.energyPerTick * (1 + s.config.regen.talentBonus)
  let tickInterval := s.config.regen.tickInterval
  let multiplier := getEnergyRegenMultiplier s
  let s := {s with energyTickProgress := s.energyTickProgress + delta}
  let fuel := if 0 < tickInterval then (Rat.ceil (s.energyTickProgress / tickInterval)).toNat else 0
  regenLoop tickInterval (regenPerTick * multiplier) fuel s

/-- `RogueSimulator.performAutoAttack`. -/
def performAutoAttack (s : Sim) : Sim :=
  let (roll, s) := rollWeaponDamage 1 s
  performWhiteDamage (roll + getAttackPowerContribution (6/5) s) s

/-- `RogueSimulator.handleAutoAttack`: the re-arm adds the (possibly
changed) interval instead of resetting the timer. -/
def handleAutoAttack (delta : ℚ) (s : Sim) : Sim :=
  let interval := s.baseAutoSpeed / getAutoSpeedMultiplier s
  let s := {s with autoAttackTimer := s.autoAttackTimer - delta}
  if s.autoAttackTimer ≤ 0 then
    let s := performAutoAttack s
    {s with autoAttackTimer := s.autoAttackTimer + interval}
  else s

/-- `RogueSimulator.updateDpsHistory` (capped at 120 samples). -/
def updateDpsHistory (s : Sim) : Sim :=
  let time := s.stats.combatTime
  let fire := match s.stats.dpsHistory.getLast? with
    | none => true
    | some last => decide (time - last.1 ≥ 1)
  if fire then
    let h := s.stats.dpsHistory ++ [(time, getCurrentDps s)]
    let h := if h.length > 120 then h.tail else h
    {s with stats := {s.stats with dpsHistory := h}}
  else s

/-- One sub-step of `RogueSimulator.update`: GCD decay, cooldown decay and
— while in combat — combat time, buff/debuff ticking, energy regeneration,
auto-attack and the DPS sample. -/
def subStep (step : ℚ) (s : Sim) : Sim :=
  let s := {s with globalCooldown := max 0 (s.globalCooldown - step)}
  let s := updateCooldowns step s
  if s.inCombat then
    let s := {s with stats := {s.stats with combatTime := s.stats.combatTime + step}}
    let s := updateBuffs step s
    let s := handleEnergy step s
    let s := handleAutoAttack step s
    updateDpsHistory s
  else s

/-- The `while (remaining > 0)` sub-stepping loop of
`RogueSimulator.update`, with explicit iteration fuel. -/
def updateLoop : ℕ → ℚ → Sim → Sim
  | 0, _, s => s
  | fuel + 1, remaining, s =>
    if remaining > 0 then
      let step := min remaining (1/2)
      updateLoop fuel (remaining - step) (subStep step s)
    else s

/-- `RogueSimulator.update` (the trailing UI refresh is presentation-side):
the delta is floored at 0 and chopped into sub-steps of at most 0.5s.  The
fuel `⌈2 · remaining⌉` is exactly the number of loop iterations. -/
def update (delta : ℚ) (s : Sim) : Sim :=
  let remaining := max delta 0
  updateLoop (Rat.ceil (2 * remaining)).toNat remaining s

/-- A sequence of `update` calls (one per host animation frame). -/
def advanceSeq (ds : List ℚ) (s : Sim) : Sim :=
  ds.foldl (fun s d => update d s) s

/-- The action of `ProcSystem.updateConfig` on the typed proc-configuration
view: `enabled` is already boolean, `chance` is clamped to its declared
[0,100] bounds and every other numeric field is floored at its declared
minimum 0. -/
def clampProcsCfg (p : ProcsCfg) : ProcsCfg where
  energySurge :=
    {enabled := p.energySurge.enabled,
     chance := min 100 (max 0 p.energySurge.chance),
     energyGain := max 0 p.energySurge.energyGain}
  flurryStrike :=
    {enabled := p.flurryStrike.enabled,
     chance := min 100 (max 0 p.flurryStrike.chance),
     hastePercent := max 0 p.flurryStrike.hastePercent,
     duration := max 0 p.flurryStrike.duration}
  overpoweringStrikes :=
    {enabled := p.overpoweringStrikes.enabled,
     chance := min 100 (max 0 p.overpoweringStrikes.chance),
     damagePercent := max 0 p.overpoweringStrikes.damagePercent,
     duration := max 0 p.overpoweringStrikes.duration}
  criticalInsight :=
    {enabled := p.criticalInsight.enabled,
     chance := min 100 (max 0 p.criticalInsight.chance),
     critPercent := max 0 p.criticalInsight.critPercent,
     duration := max 0 p.criticalInsight.duration}
  shadowRecovery :=
    {enabled := p.shadowRecovery.enabled,
     chance := min 100 (max 0 p.shadowRecovery.chance),
     energyGain := max 0 p.shadowRecovery.energyGain,
     cooldownRatePercent := max 0 p.shadowRecovery.cooldownRatePercent,
     duration := max 0 p.shadowRecovery.duration}

/-- `RogueSimulator.updateConfig`, applied to a full configuration (the
defaults merge happens on partial input; the sole caller builds a full
configuration from the input form): install the config with sanitised proc
settings, adopt the new `maxEnergy`, clamp energy to it, and refill energy
to the cap when out of combat. -/
def updateConfigS (cfg : Config) (s : Sim) : Sim :=
  let cfg := {cfg with procs := clampProcsCfg cfg.procs}
  let s := {s with config := cfg, maxEnergy := cfg.regen.maxEnergy}
  let s := {s with energy := min s.energy s.maxEnergy}
  if !s.inCombat then {s with energy := s.maxEnergy} else s

/-- An ability record (`class Ability`): display metadata is omitted, the
handler is the ability's unique combat logic.  The handler returns the
JS `boolean | void` result as `Option Bool`. -/
structure AbilityDef where
  id : String
  energyCost : ℚ
  comboPoints : ℚ := 0
  cooldown : ℚ := 0
  triggersGcd : Bool := true
  handler : Sim → Option Bool × Sim

/-- Handler of Sinister Strike. -/
def sinisterStrikeHandler (s : Sim) : Option Bool × Sim :=
  let (roll, s) := rollWeaponDamage (21/20) s
  let base := roll + 45 + getAttackPowerContribution (6/5) s
  let (_, s) := performYellowDamage
    {abilityName := "Sinister Strike", baseDamage := base, comboPointsGenerated := 1} s
  (none, s)

/-- Handler of Backstab. -/
def backstabHandler (s : Sim) : Option Bool × Sim :=
  let (roll, s) := rollWeaponDamage (3/2) s
  let base := roll + getAttackPowerContribution (17/10) s
  let (_, s) := performYellowDamage
    {abilityName := "Backstab", baseDamage := base, comboPointsGenerated := 2, critBonus := 5} s
  (none, s)

/-- Handler of Eviscerate: explicit failure with zero combo points. -/
def eviscerateHandler (s : Sim) : Option Bool × Sim :=
  let combo := s.comboPoints
  if combo = 0 then (some false, addLog s) else
  let base := 120 + combo * 90 + getAttackPowerContribution (2/5 * combo) s
  let (_, s) := performYellowDamage
    {abilityName := "Eviscerate", baseDamage := base, comboPointsSpent := combo} s
  (some true, s)

/-- The buff installed by Slice and Dice. -/
def sliceAndDiceBuff (duration : ℚ) : Effect where
  id := "sliceAndDice"
  duration := duration
  onApply := .addMod .autoSpeed "sliceAndDice" (2/5)
  onExpire := .removeMod .autoSpeed "sliceAndDice"

/-- Handler of Slice and Dice. -/
def sliceAndDiceHandler (s : Sim) : Option Bool × Sim :=
  let combo := s.comboPoints
  if combo = 0 then (some false, addLog s) else
  let duration := 6 + combo * 3
  let s := applyBuffE (sliceAndDiceBuff duration) s
  let s := consumeComboPoints combo s
  let s := onComboPointsSpent combo s
  (some true, addLog s)

/-- The bleed debuff installed by Rupture. -/
def ruptureDebuff (duration tickDamage : ℚ) : Effect where
  id := "rupture"
  duration := duration
  tickInterval := some 2
  onTick := .dot tickDamage "Rupture"

/-- Handler of Rupture. -/
def ruptureHandler (s : Sim) : Option Bool × Sim :=
  let combo := s.comboPoints
  if combo = 0 then (some false, addLog s) else
  let duration := 8 + combo * 2
  let tickDamage := 40 + combo * 25 + getAttackPowerContribution (3/25 * combo) s
  let s := applyDebuffE (ruptureDebuff duration tickDamage) s
  let s := consumeComboPoints combo s
  let s := onComboPointsSpent combo s
  (some true, s)

/-- The weakness debuff installed by Hemorrhage. -/
def hemorrhageDebuff : Effect where
  id := "hemorrhage"
  duration := 15
  onApply := .addMod .damage "hemorrhage" (1/25)
  onExpire := .removeMod .damage "hemorrhage"

/-- Handler of Hemorrhage. -/
def hemorrhageHandler (s : Sim) : Option Bool × Sim :=
  let (roll, s) := rollWeaponDamage (11/10) s
  let base := roll + 55 + getAttackPowerContribution (11/10) s
  let (hit, s) := performYellowDamage
    {abilityName := "Hemorrhage", baseDamage := base, comboPointsGenerated := 1} s
  if !hit then (none, s) else
  let s := applyDebuffE hemorrhageDebuff s
  (none, addLog s)

/-- The crit buff installed by Envenom. -/
def envenomBuff (critBonus duration : ℚ) : Effect where
  id := "envenom"
  duration := duration
  onApply := .addMod .critChance "envenom" critBonus
  onExpire := .removeMod .critChance "envenom"

/-- Handler of Envenom. -/
def envenomHandler (s : Sim) : Option Bool × Sim :=
  let combo := s.comboPoints
  if combo = 0 then (some false, addLog s) else
  let base := 90 + combo * 75 + getAttackPowerContribution (3/10 * combo) s
  let (hit, s) := performYellowDamage
    {abilityName := "Envenom", baseDamage := base, comboPointsSpent := combo} s
  if !hit then (some false, s) else
  let critBonus := combo * 3
  let duration := 2 + combo * 2
  let s := applyBuffE (envenomBuff critBonus duration) s
  (some true, addLog s)

/-- The armor debuff installed by Expose Armor. -/
def exposeArmorDebuff (duration : ℚ) : Effect where
  id := "exposeArmor"
  duration := duration
  armorReduction := some (2/25)

/-- Handler of Expose Armor. -/
def exposeArmorHandler (s : Sim) : Option Bool × Sim :=
  let combo := s.comboPoints
  if combo = 0 then (some false, addLog s) else
  let duration := 12 + combo * 3
  let s := applyDebuffE (exposeArmorDebuff duration) s
  let s := consumeComboPoints combo s
  let s := onComboPointsSpent combo s
  (some true, addLog s)

/-- The regeneration buff installed by Adrenaline Rush. -/
def adrenalineRushBuff : Effect where
  id := "adrenalineRush"
  duration := 15
  onApply := .addMod .energyRegen "adrenalineRush" 1
  onExpire := .removeMod .energyRegen "adrenalineRush"

/-- Handler of Adrenaline Rush. -/
def adrenalineRushHandler (s : Sim) : Option Bool × Sim :=
  (none, addLog (applyBuffE adrenalineRushBuff s))

/-- The channelled-regeneration buff installed by Shadow Focus. -/
def shadowFocusBuff : Effect where
  id := "shadowFocus"
  duration := 4
  tickInterval := some 1
  onTick := .refill 10

/-- Handler of Shadow Focus. -/
def shadowFocusHandler (s : Sim) : Option Bool × Sim :=
  (none, addLog (applyBuffE shadowFocusBuff s))

/-- The combined speed/damage buff installed by Blade Flurry. -/
def bladeFlurryBuff : Effect where
  id := "bladeFlurry"
  duration := 12
  onApply := .seq (.addMod .autoSpeed "bladeFlurry" (1/5)) (.addMod .damage "bladeFlurry" (1/5))
  onExpire := .seq (.removeMod .autoSpeed "bladeFlurry") (.removeMod .damage "bladeFlurry")

/-- Handler of Blade Flurry. -/
def bladeFlurryHandler (s : Sim) : Option Bool × Sim :=
  (none, addLog (applyBuffE bladeFlurryBuff s))

/-- Sinister Strike (40 energy, 1 combo point, no cooldown). -/
def sinisterStrike : AbilityDef where
  id := "sinisterStrike"
  energyCost := 40
  comboPoints := 1
  handler := sinisterStrikeHandler

/-- Backstab (60 energy, 2 combo points). -/
def backstab : AbilityDef where
  id := "backstab"
  energyCost := 60
  comboPoints := 2
  handler := backstabHandler

/-- Eviscerate (35 energy, finisher). -/
def eviscerate : AbilityDef where
  id := "eviscerate"
  energyCost := 35
  handler := eviscerateHandler

/-- Slice and Dice (25 energy, finisher). -/
def sliceAndDice : AbilityDef where
  id := "sliceAndDice"
  energyCost := 25
  handler := sliceAndDiceHandler

/-- Rupture (25 energy, finisher). -/
def rupture : AbilityDef where
  id := "rupture"
  energyCost := 25
  handler := ruptureHandler

/-- Hemorrhage (35 energy, 1 combo point). -/
def hemorrhage : AbilityDef where
  id := "hemorrhage"
  energyCost := 35
  comboPoints := 1
  handler := hemorrhageHandler

/-- Envenom (35 energy, finisher). -/
def envenom : AbilityDef where
  id := "envenom"
  energyCost := 35
  handler := envenomHandler

/-- Expose Armor (25 energy, finisher). -/
def exposeArmor : AbilityDef where
  id := "exposeArmor"
  energyCost := 25
  handler := exposeArmorHandler

/-- Adrenaline Rush (free, 180s cooldown, off the GCD). -/
def adrenalineRush : AbilityDef where
  id := "adrenalineRush"
  energyCost := 0
  cooldown := 180
  triggersGcd := false
  handler := adrenalineRushHandler

/-- Shadow Focus (free, 45s cooldown). -/
def shadowFocus : AbilityDef where
  id := "shadowFocus"
  energyCost := 0
  cooldown := 45
  handler := shadowFocusHandler

/-- Blade Flurry (25 energy, 120s cooldown, off the GCD). -/
def bladeFlurry : AbilityDef where
  id := "bladeFlurry"
  energyCost := 25
  cooldown := 120
  triggersGcd := false
  handler := bladeFlurryHandler

/-- `RogueSimulator.initializeAbilities` order. -/
def abilityList : List AbilityDef :=
  [sinisterStrike, backstab, eviscerate, sliceAndDice, rupture, hemorrhage,
   envenom, exposeArmor, adrenalineRush, shadowFocus, bladeFlurry]

/-- `Ability.canUse`: energy, then global cooldown, then own cooldown, each
logging its failure reason. -/
def canUse (ab : AbilityDef) (s : Sim) : Bool × Sim :=
  if s.energy < ab.energyCost then (false, addLog s) else
  if ab.triggersGcd && decide (s.globalCooldown > 0) then (false, addLog s) else
  if hasA ab.id s.cooldowns then (false, addLog s) else
  (true, s)

/-- `Ability.execute`: deduct the cost up front, run the handler, refund on
explicit failure (no cooldowns), otherwise arm the GCD and the ability
cooldown. -/
def execute (ab : AbilityDef) (s : Sim) : Sim :=
  let s := spendEnergy ab.energyCost s
  let (result, s) := ab.handler s
  if result = some false then refundEnergy ab.energyCost s else
  let s := if ab.triggersGcd then triggerGlobalCooldown s else s
  if ab.cooldown > 0 then setCooldown ab.id ab.cooldown s else s

/-- `RogueSimulator.castAbility`: unknown ids are ignored; casting
auto-starts combat; `canUse` gates `execute`. -/
def castAbility (id : String) (s : Sim) : Sim :=
  match abilityList.find? (fun ab => ab.id == id) with
  | none => s
  | some ab =>
    let s := if !s.inCombat then startCombat s else s
    let (ok, s) := canUse ab s
    if ok then execute ab s else s

/-- The default per-proc configuration (`defaultConfig` of each
`PROC_DEFINITIONS` entry). -/
def defaultProcsCfg : ProcsCfg where
  energySurge := {enabled := true, chance := 20, energyGain := 25}
  flurryStrike := {enabled := true, chance := 35, hastePercent := 25, duration := 6}
  overpoweringStrikes := {enabled := true, chance := 25, damagePercent := 15, duration := 8}
  criticalInsight := {enabled := true, chance := 20, critPercent := 10, duration := 10}
  shadowRecovery :=
    {enabled := true, chance := 15, energyGain := 15, cooldownRatePercent := 30, duration := 6}

/-- `RogueSimulator.getDefaultConfig`. -/
def defaultConfig : Config where
  stats := {attackPower := 1200, weaponMin := 150, weaponMax := 220, critChance := 25, hitChance := 95}
  regen := {tickInterval := 2, energyPerTick := 20, talentBonus := 3/10, maxEnergy := 100}
  globalCooldown := 1
  talents := {precisionStrikes := false, relentlessStrikes := false, shadowTechniques := false}
  procs := defaultProcsCfg

/-- The freshly constructed simulator state (the `RogueSimulator`
constructor), for a given configuration and random stream. -/
def initSim (cfg : Config) (draws : ℕ → ℚ) : Sim where
  inCombat := false
  energy := cfg.regen.maxEnergy
  maxEnergy := cfg.regen.maxEnergy
  comboPoints := 0
  maxComboPoints := 5
  globalCooldown := 0
  dummyMaxHealth := 1000000
  dummyHealth := 1000000
  autoAttackTimer := 2
  baseAutoSpeed := 2
  energyTickProgress := 0
  modifiers := ⟨[], [], [], [], []⟩
  buffs := []
  debuffs := []
  cooldowns := []
  stats := ⟨0, 0, 0, 0, [], []⟩
  config := cfg
  draws := draws
  rngIdx := 0
  logCount := 0

/-- A JavaScript value as it appears in raw proc-configuration objects
(the shapes relevant to `ProcSystem.updateConfig`: numbers, booleans and
absent/undefined). -/
inductive JsVal : Type
  | num (q : ℚ)
  | boolV (b : Bool)
  | undef
deriving DecidableEq

/-- JS truthiness (`Boolean(v)`) on the modelled values. -/
def jsTruthy : JsVal → Bool
  | .num q => decide (q ≠ 0)
  | .boolV b => b
  | .undef => false

/-- A `fields` entry of a `PROC_DEFINITIONS` record: key plus declared
clamping bounds. -/
structure FieldSpec where
  key : String
  fmin : Option ℚ
  fmax : Option ℚ
deriving DecidableEq

/-- A `PROC_DEFINITIONS` record, reduced to the parts
`ProcSystem.updateConfig` reads: id, declared fields with bounds, and the
declared default configuration object. -/
structure ProcDefn where
  id : String
  fields : List FieldSpec
  defaultConfig : List (String × JsVal)
deriving DecidableEq

/-- The five `PROC_DEFINITIONS` entries. -/
def procDefns : List ProcDefn :=
  [⟨"energySurge",
    [⟨"chance", some 0, some 100⟩, ⟨"energyGain", some 0, none⟩],
    [("enabled", .boolV true), ("chance", .num 20), ("energyGain", .num 25)]⟩,
   ⟨"flurryStrike",
    [⟨"chance", some 0, some 100⟩, ⟨"hastePercent", some 0, none⟩, ⟨"duration", some 0, none⟩],
    [("enabled", .boolV true), ("chance", .num 35), ("hastePercent", .num 25), ("duration", .num 6)]⟩,
   ⟨"overpoweringStrikes",
    [⟨"chance", some 0, some 100⟩, ⟨"damagePercent", some 0, none⟩, ⟨"duration", some 0, none⟩],
    [("enabled", .boolV true), ("chance", .num 25), ("damagePercent", .num 15), ("duration", .num 8)]⟩,
   ⟨"criticalInsight",
    [⟨"chance", some 0, some 100⟩, ⟨"critPercent", some 0, none⟩, ⟨"duration", some 0, none⟩],
    [("enabled", .boolV true), ("chance", .num 20), ("critPercent", .num 10), ("duration", .num 10)]⟩,
   ⟨"shadowRecovery",
    [⟨"chance", some 0, some 100⟩, ⟨"energyGain", some 0, none⟩,
     ⟨"cooldownRatePercent", some 0, none⟩, ⟨"duration", some 0, none⟩],
    [("enabled", .boolV true), ("chance", .num 15), ("energyGain", .num 15),
     ("cooldownRatePercent", .num 30), ("duration", .num 6)]⟩]

/-- JS object spread `{...base, ...override}`: base keys (overridden where
the override has them) followed by the override's new keys. -/
def spreadMerge (base override : List (String × JsVal)) : List (String × JsVal) :=
  base.map (fun p => match getA p.1 override with | some v => (p.1, v) | none => p)
    ++ override.filter (fun p => !(hasA p.1 base))

/-- The per-field clamping step of `ProcSystem.updateConfig`: only values
of number type are clamped, first to the declared minimum, then to the
declared maximum. -/
def clampField (f : FieldSpec) (cfg : List (String × JsVal)) : List (String × JsVal) :=
  match getA f.key cfg with
  | some (JsVal.num _) =>
    let cfg : List (String × JsVal) := match f.fmin with
      | some m =>
        match getA f.key cfg with
        | some (JsVal.num v) => setA f.key (JsVal.num (max m v)) cfg
        | _ => cfg
      | none => cfg
    match f.fmax with
    | some bigM =>
      match getA f.key cfg with
      | some (JsVal.num v) => setA f.key (JsVal.num (min bigM v)) cfg
      | _ => cfg
    | none => cfg
  | _ => cfg

/-- `ProcSystem.updateConfig`, for one definition: merge the incoming
partial object over the declared defaults, coerce `enabled` to a boolean,
and clamp each declared field. -/
def updateProcDefCfg (d : ProcDefn) (input : List (String × JsVal)) : List (String × JsVal) :=
  let cfg := spreadMerge d.defaultConfig input
  let cfg := setA "enabled" (.boolV (jsTruthy ((getA "enabled" cfg).getD .undef))) cfg
  d.fields.foldl (fun cfg f => clampField f cfg) cfg

/-- `ProcSystem.updateConfig` over the whole per-id mapping: the result
holds exactly one sanitised object per definition, whatever the input. -/
def procUpdateConfig (input : List (String × List (String × JsVal))) :
    List (String × List (String × JsVal)) :=
  procDefns.map (fun d => (d.id, updateProcDefCfg d ((getA d.id input).getD [])))

/-- Sanity of a field's declared bounds: when both are declared the
minimum does not exceed the maximum (true of every declared field). -/
def FieldWF (f : FieldSpec) : Prop :=
  match f.fmin, f.fmax with
  | some m, some bigM => m ≤ bigM
  | _, _ => True

/-- The armor factor described by the specification: multiply by
`(1 + armorReduction)` exactly when an armor-reduction debuff is active on
the target (defined from the spec's words, for comparison with
`applyDamageModifiers`). -/
def armorFactor (s : Sim) : ℚ :=
  match getA "exposeArmor" s.debuffs with
  | some e =>
    match e.armorReduction with
    | some a => if a ≠ 0 then 1 + a else 1
    | none => 1
  | none => 1

/-- Resource bounds: energy within `[0, maxEnergy]` and combo points within
`[0, maxComboPoints]`. -/
def EnergyBounds (s : Sim) : Prop :=
  0 ≤ s.energy ∧ s.energy ≤ s.maxEnergy ∧
  0 ≤ s.comboPoints ∧ s.comboPoints ≤ s.maxComboPoints

/-- Well-formedness of a stored tick callback: refill amounts are
non-negative (true of every effect the source constructs). -/
def WFTick : TickCb → Prop
  | .refill a => 0 ≤ a
  | _ => True

/-- Every stored buff/debuff has a well-formed tick callback. -/
def WFEffects (s : Sim) : Prop :=
  (∀ p ∈ s.buffs, WFTick p.2.onTick) ∧ (∀ p ∈ s.debuffs, WFTick p.2.onTick)

/-- The regeneration-block facts guaranteed by the configuration boundary
(`getConfigFromInputs` clamps `energyPerTick ≥ 0`, `talentBonus ≥ 0`,
`tickInterval ≥ 0.1` and `maxEnergy ∈ [100, 250]`). -/
def WFConfig (c : Config) : Prop :=
  0 ≤ c.regen.energyPerTick ∧ 0 ≤ c.regen.talentBonus ∧
  0 < c.regen.tickInterval ∧ 0 ≤ c.regen.maxEnergy

/-- The reachable-state invariant: resource bounds, non-negative caps,
well-formed stored effects and a well-formed configuration. -/
def Inv (s : Sim) : Prop :=
  EnergyBounds s ∧ 0 ≤ s.maxEnergy ∧ 0 ≤ s.maxComboPoints ∧
  WFEffects s ∧ WFConfig s.config

/-- The configuration of end-to-end scenario A: defaults with
`hitChance = 100`. -/
def cfgA : Config :=
  {defaultConfig with stats := {defaultConfig.stats with hitChance := 100}}

/-- The all-zero draw stream (every roll succeeds). -/
def drawsZero : ℕ → ℚ := fun _ => 0

/-- A +20% damage buff of the shape the source constructs (the
`overpoweringStrikes`/Blade Flurry shape), used for the re-application
test. -/
def dmgBuff20 : Effect where
  id := "dmg20"
  duration := 8
  onApply := .addMod .damage "dmg20" (1/5)
  onExpire := .removeMod .damage "dmg20"

/-- A ticking test effect of the Shadow Focus shape: `tickInterval = 1` and
an energy refill of 10 per tick, with a long duration. -/
def tickTestBuff : Effect where
  id := "tickTest"
  duration := 100
  remaining := 100
  tickInterval := some 1
  onTick := .refill 10

/-- A state holding only `tickTestBuff`, with empty energy: each `onTick`
invocation is observable as +10 energy. -/
def tickTestSim : Sim :=
  let s := initSim defaultConfig drawsZero
  {s with energy := 0, buffs := [("tickTest", tickTestBuff)]}

/-- A mutating engine operation, as enumerated by the specification:
energy spend/refund/refill, combo-point add/consume, an `advance` step, an
ability cast, and a configuration update. -/
inductive EngineOp where
  | spend (a : ℚ)
  | refund (a : ℚ)
  | refill (a : ℚ)
  | addCP (a : ℚ)
  | consumeCP (a : ℚ)
  | advance (d : ℚ)
  | cast (id : String)
  | config (cfg : Config)

/-- Run one engine operation on the simulator state. -/
def runOp : EngineOp → Sim → Sim
  | .spend a, s => spendEnergy a s
  | .refund a, s => refundEnergy a s
  | .refill a, s => refillEnergy a s
  | .addCP a, s => addComboPoints a s
  | .consumeCP a, s => consumeComboPoints a s
  | .advance d, s => update d s
  | .cast id, s => castAbility id s
  | .config cfg, s => updateConfigS cfg s

/-- The boundary conditions the engine's callers satisfy: resource deltas
are non-negative (all costs, refunds, gains and combo amounts in the source
are), and installed configurations come from the sanitising input path
(positive tick interval, non-negative regeneration numbers). -/
def WFOp : EngineOp → Prop
  | .spend a => 0 ≤ a
  | .refund a => 0 ≤ a
  | .refill a => 0 ≤ a
  | .addCP a => 0 ≤ a
  | .consumeCP a => 0 ≤ a
  | .advance _ => True
  | .cast _ => True
  | .config cfg => WFConfig cfg

/-- Frame of one proc-phase step: the proc system can only raise energy
(never past the cap) and leaves the cap, target health, stats, config and
the draw stream untouched. -/
def ProcStep (s t : Sim) : Prop :=
  t.maxEnergy = s.maxEnergy ∧ t.dummyHealth = s.dummyHealth ∧
  t.stats = s.stats ∧ t.config = s.config ∧ t.draws = s.draws ∧
  (s.energy ≤ s.maxEnergy → s.energy ≤ t.energy ∧ t.energy ≤ s.maxEnergy)

/-- Frame of a failed proc roll: energy, config and the draw stream are
unchanged. -/
def ProcSkipStep (s t : Sim) : Prop :=
  t.energy = s.energy ∧ t.config = s.config ∧ t.draws = s.draws

/-- Scenario states of the single-cast claim: the state after the cast
auto-starts combat and the 40-energy cost is deducted. -/
def c2SP (dws : ℕ → ℚ) : Sim := spendEnergy 40 (startCombat (initSim cfgA dws))
/-- The scenario state after the weapon-damage and hit rolls. -/
def c2S4 (dws : ℕ → ℚ) : Sim := (rollHit (rollWeaponDamage (21/20) (c2SP dws)).2).2
/-- The scenario crit roll. -/
def c2Crit (dws : ℕ → ℚ) : Bool :=
  (rollCrit (c2S4 dws).config.stats.critChance (c2S4 dws)).1
/-- The scenario state entering `applyDamage`. -/
def c2M (dws : ℕ → ℚ) : Sim :=
  (rollCrit (c2S4 dws).config.stats.critChance (c2S4 dws)).2
/-- The scenario base damage (weapon roll + 45 + attack-power scaling). -/
def c2Base (dws : ℕ → ℚ) : ℚ :=
  (rollWeaponDamage (21/20) (c2SP dws)).1 + 45 +
    getAttackPowerContribution (6/5) (rollWeaponDamage (21/20) (c2SP dws)).2
/-- The scenario modified damage. -/
def c2Dmg (dws : ℕ → ℚ) : ℚ := applyDamageModifiers (c2Base dws) (c2Crit dws) (c2M dws)
/-- The scenario damage context. -/
def c2Ctx (dws : ℕ → ℚ) : DmgCtx :=
  {abilityName := some "Sinister Strike", isCrit := c2Crit dws}
/-- The end state of the scenario cast. -/
def c2Final (dws : ℕ → ℚ) : Sim :=
  triggerGlobalCooldown (addComboPoints 1
    (applyDamage (c2Dmg dws) (c2Ctx dws) (c2M dws)))

/-! ### Association-list lemmas -/

theorem getA_eq_none_of_hasA_false {α : Type} (k : String) (m : List (String × α))
    (h : hasA k m = false) : getA k m = none := by
  induction m with
  | nil => rfl
  | cons p t ih =>
    simp only [hasA, List.any_cons, Bool.or_eq_false_iff] at h
    simp only [getA, List.find?_cons]
    rcases h with ⟨h1, h2⟩
    rw [h1]
    exact ih h2

theorem getA_setA_self {α : Type} (k : String) (v : α) (m : List (String × α)) :
    getA k (setA k v m) = some v := by
  unfold setA
  by_cases h : hasA k m
  · rw [if_pos h]
    unfold hasA at h
    rw [List.any_eq_true] at h
    obtain ⟨p, hp, hpk⟩ := h
    induction m with
    | nil => cases hp
    | cons q t ih =>
      simp only [List.map_cons, getA, List.find?_cons]
      by_cases hq : q.1 == k
      · simp [hq]
      · simp only [hq, if_neg, Bool.false_eq_true, not_false_eq_true, if_neg hq]
        rcases List.mem_cons.mp hp with rfl | hpt
        · exact absurd hpk (by simpa using hq)
        · simpa [getA] using ih hpt
  · rw [if_neg h]
    rw [Bool.not_eq_true] at h
    induction m with
    | nil => simp [getA]
    | cons q t ih =>
      simp only [hasA, List.any_cons, Bool.or_eq_false_iff] at h
      simp only [List.cons_append, getA, List.find?_cons, h.1]
      simpa [getA] using ih h.2

theorem filter_ne_map_replace {α : Type} (k : String) (v : α) (m : List (String × α)) :
    List.filter (fun p => p.1 != k) (m.map (fun p => if p.1 == k then (k, v) else p)) =
      List.filter (fun p => p.1 != k) m := by
  induction m with
  | nil => rfl
  | cons q t ih =>
    by_cases hq : q.1 == k
    · simp only [List.map_cons, if_pos hq, List.filter_cons]
      have hk : ((k, v).1 != k) = false := by simp
      have hq2 : (q.1 != k) = false := by simpa using hq
      rw [hk, hq2]
      simpa using ih
    · simp only [List.map_cons, if_neg hq, List.filter_cons]
      by_cases hq2 : (q.1 != k) = true
      · rw [hq2]
        simp only [if_pos rfl]
        rw [ih]
      · simp only [Bool.not_eq_true] at hq2
        rw [hq2]
        simpa using ih

theorem delA_setA_self {α : Type} (k : String) (v : α) (m : List (String × α)) :
    delA k (setA k v m) = delA k m := by
  unfold setA delA
  by_cases h : hasA k m
  · rw [if_pos h]
    exact filter_ne_map_replace k v m
  · rw [if_neg h]
    simp

theorem hasA_delA_self {α : Type} (k : String) (m : List (String × α)) :
    hasA k (delA k m) = false := by
  unfold hasA delA
  simp only [List.any_eq_false, List.mem_filter]
  intro p hp
  simpa using hp.2

theorem sum_setA_of_hasA_false (k : String) (v : ℚ) (m : List (String × ℚ))
    (h : hasA k m = false) :
    ((setA k v m).map (fun p => p.2)).sum = (m.map (fun p => p.2)).sum + v := by
  simp [setA, h]

theorem sum_delA_getA_none (k : String) (m : List (String × ℚ))
    (h : getA k m = none) : delA k m = m := by
  unfold delA
  induction m with
  | nil => rfl
  | cons q t ih =>
    simp only [getA, List.find?_cons] at h
    by_cases hq : q.1 == k
    · rw [hq] at h
      simp at h
    · simp only [hq] at h
      simp only [List.filter_cons]
      have : (q.1 != k) = true := by simpa using hq
      rw [if_pos this]
      rw [ih (by simpa [getA] using h)]

/-! ### Frame lemmas: which fields the primitive operations leave alone -/

theorem runPrim_frame (cb : PrimCb) (s : Sim) :
    (runPrim cb s).energy = s.energy ∧ (runPrim cb s).maxEnergy = s.maxEnergy ∧
    (runPrim cb s).comboPoints = s.comboPoints ∧
    (runPrim cb s).maxComboPoints = s.maxComboPoints ∧
    (runPrim cb s).globalCooldown = s.globalCooldown ∧
    (runPrim cb s).cooldowns = s.cooldowns ∧
    (runPrim cb s).buffs = s.buffs ∧ (runPrim cb s).debuffs = s.debuffs ∧
    (runPrim cb s).stats = s.stats ∧ (runPrim cb s).rngIdx = s.rngIdx ∧
    (runPrim cb s).logCount = s.logCount ∧ (runPrim cb s).config = s.config ∧
    (runPrim cb s).inCombat = s.inCombat ∧
    (runPrim cb s).dummyHealth = s.dummyHealth ∧
    (runPrim cb s).dummyMaxHealth = s.dummyMaxHealth ∧
    (runPrim cb s).draws = s.draws := by
  induction cb generalizing s with
  | nop => exact ⟨rfl, rfl, rfl, rfl, rfl, rfl, rfl, rfl, rfl, rfl, rfl, rfl, rfl, rfl, rfl, rfl⟩
  | addMod ch k v => exact ⟨rfl, rfl, rfl, rfl, rfl, rfl, rfl, rfl, rfl, rfl, rfl, rfl, rfl, rfl, rfl, rfl⟩
  | removeMod ch k => exact ⟨rfl, rfl, rfl, rfl, rfl, rfl, rfl, rfl, rfl, rfl, rfl, rfl, rfl, rfl, rfl, rfl⟩
  | seq a b iha ihb =>
    have ha := iha s
    have hb := ihb (runPrim a s)
    exact ⟨(hb.1).trans ha.1, (hb.2.1).trans ha.2.1, (hb.2.2.1).trans ha.2.2.1,
      (hb.2.2.2.1).trans ha.2.2.2.1, (hb.2.2.2.2.1).trans ha.2.2.2.2.1,
      (hb.2.2.2.2.2.1).trans ha.2.2.2.2.2.1, (hb.2.2.2.2.2.2.1).trans ha.2.2.2.2.2.2.1,
      (hb.2.2.2.2.2.2.2.1).trans ha.2.2.2.2.2.2.2.1,
      (hb.2.2.2.2.2.2.2.2.1).trans ha.2.2.2.2.2.2.2.2.1,
      (hb.2.2.2.2.2.2.2.2.2.1).trans ha.2.2.2.2.2.2.2.2.2.1,
      (hb.2.2.2.2.2.2.2.2.2.2.1).trans ha.2.2.2.2.2.2.2.2.2.2.1,
      (hb.2.2.2.2.2.2.2.2.2.2.2.1).trans ha.2.2.2.2.2.2.2.2.2.2.2.1,
      (hb.2.2.2.2.2.2.2.2.2.2.2.2.1).trans ha.2.2.2.2.2.2.2.2.2.2.2.2.1,
      (hb.2.2.2.2.2.2.2.2.2.2.2.2.2.1).trans ha.2.2.2.2.2.2.2.2.2.2.2.2.2.1,
      (hb.2.2.2.2.2.2.2.2.2.2.2.2.2.2.1).trans ha.2.2.2.2.2.2.2.2.2.2.2.2.2.2.1,
      (hb.2.2.2.2.2.2.2.2.2.2.2.2.2.2.2).trans ha.2.2.2.2.2.2.2.2.2.2.2.2.2.2.2⟩

/-! ### Claim C8 -/

/-- Claim C8: `applyDamage` rounds its amount to the nearest integer and,
when the rounded amount is `≤ 0`, returns without any effect: the whole
simulator state (target health, cumulative stats, per-ability usage, log,
proc evaluation / random stream) is unchanged. -/
theorem claim_c8 (amount : ℚ) (ctx : DmgCtx) (s : Sim) (h : roundJS amount ≤ 0) :
    applyDamage amount ctx s = s := by
  unfold applyDamage
  rw [if_pos h]

/-- Witness for C8: a 0.4-damage hit rounds to 0 and is dropped. -/
theorem claim_c8_witness :
    roundJS (2/5) ≤ 0 ∧
    applyDamage (2/5) {} (initSim defaultConfig drawsZero) = initSim defaultConfig drawsZero :=
  ⟨by decide, claim_c8 (2/5) {} (initSim defaultConfig drawsZero) (by decide)⟩

/-! ### Claim C10 -/

/-- Claim C10: for every stats configuration (reversed weapon bounds
included) and every uniform draw in `[0,1)`, `rollWeaponDamage` returns a
value within `[min(weaponMin, weaponMax) · multiplier,
max(weaponMin, weaponMax) · multiplier]`. -/
theorem claim_c10 (multiplier : ℚ) (s : Sim) (hm : 0 ≤ multiplier)
    (hu0 : 0 ≤ s.draws s.rngIdx) (hu1 : s.draws s.rngIdx < 1) :
    min s.config.stats.weaponMin s.config.stats.weaponMax * multiplier
      ≤ (rollWeaponDamage multiplier s).1 ∧
    (rollWeaponDamage multiplier s).1
      ≤ max s.config.stats.weaponMin s.config.stats.weaponMax * multiplier := by
  simp only [rollWeaponDamage, nextRand]
  have hspan : 0 ≤ max s.config.stats.weaponMin s.config.stats.weaponMax
      - min s.config.stats.weaponMin s.config.stats.weaponMax :=
    sub_nonneg.mpr (min_le_max)
  split_ifs with h
  · constructor
    · exact le_rfl
    · have : max s.config.stats.weaponMin s.config.stats.weaponMax
          = min s.config.stats.weaponMin s.config.stats.weaponMax := le_antisymm (by linarith) min_le_max
      rw [this]
  · constructor
    · apply mul_le_mul_of_nonneg_right _ hm
      nlinarith
    · apply mul_le_mul_of_nonneg_right _ hm
      nlinarith

/-- Witness for C10: the default weapon range at a mid draw. -/
theorem claim_c10_witness :
    min (initSim defaultConfig (fun _ => (1:ℚ)/2)).config.stats.weaponMin
        (initSim defaultConfig (fun _ => (1:ℚ)/2)).config.stats.weaponMax * (21/20)
      ≤ (rollWeaponDamage (21/20) (initSim defaultConfig (fun _ => (1:ℚ)/2))).1 ∧
    (rollWeaponDamage (21/20) (initSim defaultConfig (fun _ => (1:ℚ)/2))).1
      ≤ max (initSim defaultConfig (fun _ => (1:ℚ)/2)).config.stats.weaponMin
          (initSim defaultConfig (fun _ => (1:ℚ)/2)).config.stats.weaponMax * (21/20) :=
  claim_c10 (21/20) (initSim defaultConfig (fun _ => (1:ℚ)/2))
    (by decide) (by decide) (by decide)

/-! ### Claim C5 -/

/-- Claim C5: `applyDamageModifiers` composes armor reduction (the factor
described by the spec), then crit doubling, then the global damage
multiplier `max 0 (1 + Σ modifiers.damage)`; concretely, with an active
`armorReduction = 0.08` debuff a non-crit base-1000 hit at damage
multiplier 1 yields `round(1000 · 1.08) = 1080`. -/
theorem claim_c5 (base : ℚ) (isCrit : Bool) (s : Sim) :
    applyDamageModifiers base isCrit s
      = base * armorFactor s * (if isCrit then 2 else 1) * max 0 (1 + modTotal .damage s) ∧
    roundJS (applyDamageModifiers 1000 false
      (applyDebuffE (exposeArmorDebuff 12) (initSim defaultConfig drawsZero))) = 1080 := by
  constructor
  · simp only [applyDamageModifiers, armorFactor, getDamageMultiplier]
    rcases hget : getA "exposeArmor" s.debuffs with _ | e
    · simp only [hget]
      split_ifs <;> ring
    · simp only [hget]
      rcases har : e.armorReduction with _ | a
      · simp only [har]
        split_ifs <;> ring
      · simp only [har]
        split_ifs <;> ring
  · decide

/-! ### Claim C3 -/

theorem execute_rollback_aux (ab : AbilityDef) (s : Sim)
    (hh : ab.handler (spendEnergy ab.energyCost s)
      = (some false, addLog (spendEnergy ab.energyCost s)))
    (h1 : ab.energyCost ≤ s.energy) (h2 : s.energy ≤ s.maxEnergy) :
    (execute ab s).energy = s.energy ∧
    (execute ab s).globalCooldown = s.globalCooldown ∧
    (execute ab s).cooldowns = s.cooldowns := by
  simp only [execute, hh]
  refine ⟨?_, rfl, rfl⟩
  show min s.maxEnergy (max 0 (s.energy - ab.energyCost) + ab.energyCost) = s.energy
  rw [max_eq_right (sub_nonneg.mpr h1), sub_add_cancel, min_eq_right h2]

/-- Claim C3: for every finisher cast with `comboPoints = 0` the handler
signals explicit failure, so (given `energyCost ≤ energy ≤ maxEnergy`,
guaranteed by `canUse`) `execute` refunds the full cost — energy is exactly
restored — and neither the global cooldown nor the ability's own cooldown
is touched. -/
theorem claim_c3 (ab : AbilityDef)
    (hab : ab ∈ [eviscerate, sliceAndDice, rupture, envenom, exposeArmor])
    (s : Sim) (hcp : s.comboPoints = 0)
    (h1 : ab.energyCost ≤ s.energy) (h2 : s.energy ≤ s.maxEnergy) :
    (execute ab s).energy = s.energy ∧
    (execute ab s).globalCooldown = s.globalCooldown ∧
    (execute ab s).cooldowns = s.cooldowns := by
  fin_cases hab
  · exact execute_rollback_aux _ s
      (by simp [eviscerate, eviscerateHandler, spendEnergy, hcp]) h1 h2
  · exact execute_rollback_aux _ s
      (by simp [sliceAndDice, sliceAndDiceHandler, spendEnergy, hcp]) h1 h2
  · exact execute_rollback_aux _ s
      (by simp [rupture, ruptureHandler, spendEnergy, hcp]) h1 h2
  · exact execute_rollback_aux _ s
      (by simp [envenom, envenomHandler, spendEnergy, hcp]) h1 h2
  · exact execute_rollback_aux _ s
      (by simp [exposeArmor, exposeArmorHandler, spendEnergy, hcp]) h1 h2

/-- Witness for C3: Eviscerate at zero combo points from the fresh
simulator state. -/
theorem claim_c3_witness :
    (execute eviscerate (initSim defaultConfig drawsZero)).energy
      = (initSim defaultConfig drawsZero).energy ∧
    (execute eviscerate (initSim defaultConfig drawsZero)).globalCooldown
      = (initSim defaultConfig drawsZero).globalCooldown ∧
    (execute eviscerate (initSim defaultConfig drawsZero)).cooldowns
      = (initSim defaultConfig drawsZero).cooldowns :=
  claim_c3 eviscerate (by simp) (initSim defaultConfig drawsZero)
    (by decide) (by decide) (by decide)

/-! ### Claim C4 -/

/-- Claim C4: re-applying an effect whose id is present runs the existing
instance's `onExpire` first, then the new instance replaces it with
`remaining = duration` and its `onApply` runs (first two conjuncts: the
buff and debuff replacement equations); consequently a +20% damage buff
applied twice leaves its modifier key with exactly one net 0.2
contribution — total `+0.2`, not `+0.4`. -/
theorem claim_c4 (b old : Effect) (sb : Sim)
    (hb : getA b.id sb.buffs = some old) (hd : getA b.id sb.debuffs = some old)
    (s : Sim) (h1 : hasA "dmg20" s.buffs = false)
    (h2 : hasA "dmg20" s.modifiers.damage = false) :
    (applyBuffE b sb
      = runPrim b.onApply
          {runPrim old.onExpire sb with
            buffs := setA b.id {b with remaining := b.duration} (runPrim old.onExpire sb).buffs}) ∧
    (applyDebuffE b sb
      = runPrim b.onApply
          {runPrim old.onExpire sb with
            debuffs := setA b.id {b with remaining := b.duration} (runPrim old.onExpire sb).debuffs}) ∧
    getA "dmg20" (applyBuffE dmgBuff20 (applyBuffE dmgBuff20 s)).modifiers.damage
      = some (1/5) ∧
    modTotal .damage (applyBuffE dmgBuff20 (applyBuffE dmgBuff20 s))
      = modTotal .damage s + 1/5 ∧
    getA "dmg20" (applyBuffE dmgBuff20 (applyBuffE dmgBuff20 s)).buffs
      = some {dmgBuff20 with remaining := dmgBuff20.duration} := by
  have hnone : getA "dmg20" s.buffs = none := getA_eq_none_of_hasA_false _ _ h1
  have hmnone : getA "dmg20" s.modifiers.damage = none := getA_eq_none_of_hasA_false _ _ h2
  have hfirst : applyBuffE dmgBuff20 s
      = runPrim dmgBuff20.onApply
          {s with buffs := setA "dmg20" {dmgBuff20 with remaining := dmgBuff20.duration} s.buffs} := by
    simp only [applyBuffE, show dmgBuff20.id = "dmg20" from rfl, hnone]
  have hsecond : applyBuffE dmgBuff20 (applyBuffE dmgBuff20 s)
      = {s with
          buffs := setA "dmg20" {dmgBuff20 with remaining := dmgBuff20.duration}
            (setA "dmg20" {dmgBuff20 with remaining := dmgBuff20.duration} s.buffs),
          modifiers := s.modifiers.set .damage
            (setA "dmg20" (1/5) (delA "dmg20" (setA "dmg20" (1/5) s.modifiers.damage)))} := by
    rw [hfirst]
    simp only [show dmgBuff20.onApply = PrimCb.addMod .damage "dmg20" (1/5) from rfl,
      runPrim, addModifier, applyBuffE, show dmgBuff20.id = "dmg20" from rfl,
      Mods.get, Mods.set, getA_setA_self,
      show ({dmgBuff20 with remaining := dmgBuff20.duration} : Effect).onExpire
        = PrimCb.removeMod .damage "dmg20" from rfl,
      show ({dmgBuff20 with remaining := dmgBuff20.duration} : Effect).onApply
        = PrimCb.addMod .damage "dmg20" (1/5) from rfl,
      removeModifier]
  rw [hsecond]
  refine ⟨?_, ?_, ?_, ?_, ?_⟩
  · simp only [applyBuffE, hb]
  · simp only [applyDebuffE, hd]
  · simp only [Mods.get, Mods.set, delA_setA_self,
      sum_delA_getA_none "dmg20" s.modifiers.damage hmnone, getA_setA_self]
  · simp only [modTotal, Mods.get, Mods.set, delA_setA_self,
      sum_delA_getA_none "dmg20" s.modifiers.damage hmnone]
    rw [sum_setA_of_hasA_false _ _ _ h2]
  · simp only [getA_setA_self]

/-- Witness for C4: a state carrying an `x`-id effect in both maps, and the
fresh simulator for the double application. -/
theorem claim_c4_witness :
    (applyBuffE (dmgBuff20)
        {initSim defaultConfig drawsZero with
          buffs := [("dmg20", dmgBuff20)], debuffs := [("dmg20", dmgBuff20)]}
      = runPrim dmgBuff20.onApply
          {runPrim dmgBuff20.onExpire
              {initSim defaultConfig drawsZero with
                buffs := [("dmg20", dmgBuff20)], debuffs := [("dmg20", dmgBuff20)]} with
            buffs := setA dmgBuff20.id {dmgBuff20 with remaining := dmgBuff20.duration}
              (runPrim dmgBuff20.onExpire
                {initSim defaultConfig drawsZero with
                  buffs := [("dmg20", dmgBuff20)],
                  debuffs := [("dmg20", dmgBuff20)]}).buffs}) ∧
    (applyDebuffE (dmgBuff20)
        {initSim defaultConfig drawsZero with
          buffs := [("dmg20", dmgBuff20)], debuffs := [("dmg20", dmgBuff20)]}
      = runPrim dmgBuff20.onApply
          {runPrim dmgBuff20.onExpire
              {initSim defaultConfig drawsZero with
                buffs := [("dmg20", dmgBuff20)], debuffs := [("dmg20", dmgBuff20)]} with
            debuffs := setA dmgBuff20.id {dmgBuff20 with remaining := dmgBuff20.duration}
              (runPrim dmgBuff20.onExpire
                {initSim defaultConfig drawsZero with
                  buffs := [("dmg20", dmgBuff20)],
                  debuffs := [("dmg20", dmgBuff20)]}).debuffs}) ∧
    getA "dmg20"
        (applyBuffE dmgBuff20 (applyBuffE dmgBuff20 (initSim defaultConfig drawsZero))).modifiers.damage
      = some (1/5) ∧
    modTotal .damage (applyBuffE dmgBuff20 (applyBuffE dmgBuff20 (initSim defaultConfig drawsZero)))
      = modTotal .damage (initSim defaultConfig drawsZero) + 1/5 ∧
    getA "dmg20" (applyBuffE dmgBuff20 (applyBuffE dmgBuff20 (initSim defaultConfig drawsZero))).buffs
      = some {dmgBuff20 with remaining := dmgBuff20.duration} :=
  claim_c4 dmgBuff20 dmgBuff20
    {initSim defaultConfig drawsZero with
      buffs := [("dmg20", dmgBuff20)], debuffs := [("dmg20", dmgBuff20)]}
    (by decide) (by decide)
    (initSim defaultConfig drawsZero) (by decide) (by decide)

/-! ### Claim C1 -/

/-- Counterexample for C1: a buff with `tickInterval = 1` whose `onTick`
refills 10 energy, ticked once with `delta = 3.5` from energy 0, ends at
energy 10 — `onTick` ran once, not three times (which would give 30). -/
theorem claim_c1_counterexample :
    (updateBuffs (7/2) tickTestSim).energy = 10 ∧
    ¬ (updateBuffs (7/2) tickTestSim).energy = 30 := by
  decide

theorem refill_fields (a : ℚ) (s : Sim) :
    (refillEnergy a s).energy = min s.maxEnergy (s.energy + a) ∧
    (refillEnergy a s).maxEnergy = s.maxEnergy ∧
    (refillEnergy a s).debuffs = s.debuffs := by
  simp only [refillEnergy, addLog]
  split_ifs <;> exact ⟨rfl, rfl, rfl⟩

/-- Claim C1 (amended): in one effect-ticking call with delta `d`, an
active effect with tick interval `i > 0` fires `onTick` at most once:
exactly once when `tickProgress + d ≥ i` (one interval is subtracted, the
excess stays accumulated for later calls), never otherwise — not once per
full interval contained in `d`. -/
theorem claim_c1_amended (s : Sim) (id : String) (e : Effect) (i r delta : ℚ)
    (hb : s.buffs = [(id, e)]) (hdb : s.debuffs = [])
    (hi : e.tickInterval = some i) (hipos : 0 < i)
    (ht : e.onTick = .refill r)
    (hcap : s.energy + r ≤ s.maxEnergy) :
    (updateBuffs delta s).energy
      = s.energy + (if e.tickProgress + delta ≥ i then r else 0) := by
  have hine : i ≠ 0 := ne_of_gt hipos
  have key : (stepBuffEntry delta s (id, e)).energy
        = s.energy + (if e.tickProgress + delta ≥ i then r else 0) ∧
      (stepBuffEntry delta s (id, e)).debuffs = [] := by
    simp only [stepBuffEntry, effectStep, hi]
    rw [if_pos hine]
    by_cases hfire : e.tickProgress + delta ≥ i
    · rw [if_pos hfire]
      simp only [ht, runTick, if_true, eq_self_iff_true]
      have hrf := refill_fields r s
      by_cases hexp : e.remaining - delta ≤ 0
      · simp only [if_pos hexp]
        have hfr := runPrim_frame e.onExpire (refillEnergy r s)
        constructor
        · simp only [addLog]
          rw [hfr.1, hrf.1, min_eq_right hcap, if_pos hfire]
        · simp only [addLog]
          rw [hfr.2.2.2.2.2.2.2.1, hrf.2.2, hdb]
      · simp only [if_neg hexp]
        constructor
        · rw [hrf.1, min_eq_right hcap, if_pos hfire]
        · rw [hrf.2.2, hdb]
    · rw [if_neg hfire]
      simp only [Bool.false_eq_true, if_false]
      by_cases hexp : e.remaining - delta ≤ 0
      · simp only [if_pos hexp]
        have hfr := runPrim_frame e.onExpire s
        constructor
        · simp only [addLog]
          rw [hfr.1, if_neg hfire, add_zero]
        · simp only [addLog]
          rw [hfr.2.2.2.2.2.2.2.1, hdb]
      · simp only [if_neg hexp]
        exact ⟨by rw [if_neg hfire, add_zero], hdb⟩
  simp only [updateBuffs, hb, List.foldl_cons, List.foldl_nil, key.2]
  exact key.1

/-- Witness for C1 (amended): the counterexample state, delta 3.5,
interval 1, tick refill 10 — exactly one fire. -/
theorem claim_c1_amended_witness :
    (updateBuffs (7/2) tickTestSim).energy
      = tickTestSim.energy
        + (if tickTestBuff.tickProgress + 7/2 ≥ 1 then 10 else 0) :=
  claim_c1_amended tickTestSim "tickTest" tickTestBuff 1 10 (7/2)
    (by decide) (by decide) (by decide) (by decide) (by decide) (by decide)

/-! ### Claim C9 -/

theorem getA_map_replace_ne {α : Type} (k g : String) (v : α) (m : List (String × α))
    (h : ¬ k = g) :
    getA k (m.map (fun p => if p.1 == g then (g, v) else p)) = getA k m := by
  induction m with
  | nil => rfl
  | cons q t ih =>
    simp only [List.map_cons, getA, List.find?_cons]
    by_cases hq : (q.1 == g) = true
    · have hne : (((g, v) : String × α).1 == k) = false := by
        simp only [beq_eq_false_iff_ne, ne_eq]
        exact fun hgk => h hgk.symm
      have hq2 : (q.1 == k) = false := by
        simp only [beq_eq_false_iff_ne, ne_eq]
        intro hk
        exact h (hk.symm.trans (eq_of_beq hq))
      rw [if_pos hq, hne, hq2]
      simpa [getA] using ih
    · rw [if_neg hq]
      by_cases hk : (q.1 == k) = true
      · rw [hk]
      · rw [Bool.not_eq_true] at hk
        rw [hk]
        simpa [getA] using ih

theorem getA_setA_ne {α : Type} (k g : String) (v : α) (m : List (String × α))
    (h : ¬ k = g) : getA k (setA g v m) = getA k m := by
  unfold setA
  split_ifs with hg
  · exact getA_map_replace_ne k g v m h
  · unfold getA
    rw [List.find?_append]
    have hne : (((g, v) : String × α).1 == k) = false := by
      simp only [beq_eq_false_iff_ne, ne_eq]
      exact fun hgk => h hgk.symm
    rcases hfound : List.find? (fun p => p.1 == k) m with _ | p
    · rw [hfound]
      simp [List.find?, hne]
    · rw [hfound]
      simp

theorem clampField_preserve (k : String) (g : FieldSpec) (cfg : List (String × JsVal))
    (h : ¬ k = g.key) : getA k (clampField g cfg) = getA k cfg := by
  unfold clampField
  rcases hv : getA g.key cfg with _ | v
  · simp only [hv]
  · rcases v with q | b | u
    · simp only [hv]
      rcases hmin : g.fmin with _ | m
      · rcases hmax : g.fmax with _ | bigM
        · simp only []
        · simp only [hv, getA_setA_ne k g.key _ _ h]
      · rcases hmax : g.fmax with _ | bigM
        · simp only [hv, getA_setA_ne k g.key _ _ h]
        · simp only [hv, getA_setA_self, getA_setA_ne k g.key _ _ h]
    · simp only [hv]
    · simp only [hv]

theorem clampField_self (f : FieldSpec) (cfg : List (String × JsVal)) (hwf : FieldWF f)
    (q : ℚ) (hq : getA f.key (clampField f cfg) = some (JsVal.num q)) :
    (∀ m, f.fmin = some m → m ≤ q) ∧ (∀ bigM, f.fmax = some bigM → q ≤ bigM) := by
  obtain ⟨key, fmin0, fmax0⟩ := f
  unfold clampField at hq
  simp only [] at hq hwf ⊢
  rcases hv : getA key cfg with _ | v
  · rw [hv] at hq
    exact absurd (hv.symm.trans hq) (by simp)
  · rcases v with q0 | b | u
    · rw [hv] at hq
      rcases fmin0 with _ | m
      · rcases fmax0 with _ | bigM
        · simp only [hv, Option.some.injEq, JsVal.num.injEq] at hq
          subst hq
          exact ⟨fun m hm => Option.noConfusion hm, fun bigM hM => Option.noConfusion hM⟩
        · simp only [hv, getA_setA_self, Option.some.injEq, JsVal.num.injEq] at hq
          subst hq
          refine ⟨fun m hm => Option.noConfusion hm, fun bigM2 hM => ?_⟩
          injection hM with h2
          subst h2
          exact min_le_left _ _
      · rcases fmax0 with _ | bigM
        · simp only [hv, getA_setA_self, Option.some.injEq, JsVal.num.injEq] at hq
          subst hq
          refine ⟨fun m2 hm => ?_, fun bigM hM => Option.noConfusion hM⟩
          injection hm with h2
          subst h2
          exact le_max_left _ _
        · have hwfmm : m ≤ bigM := by
            simpa [FieldWF] using hwf
          simp only [hv, getA_setA_self, Option.some.injEq, JsVal.num.injEq] at hq
          subst hq
          refine ⟨fun m2 hm => ?_, fun bigM2 hM => ?_⟩
          · injection hm with h2
            subst h2
            exact le_min hwfmm (le_max_left _ _)
          · injection hM with h2
            subst h2
            exact min_le_left _ _
    · rw [hv] at hq
      exact absurd (hv.symm.trans hq) (by simp)
    · rw [hv] at hq
      exact absurd (hv.symm.trans hq) (by simp)

theorem foldl_clampField_preserve (k : String) (fields : List FieldSpec)
    (cfg : List (String × JsVal)) (h : ∀ f ∈ fields, ¬ k = f.key) :
    getA k (fields.foldl (fun c g => clampField g c) cfg) = getA k cfg := by
  induction fields generalizing cfg with
  | nil => rfl
  | cons g rest ih =>
    simp only [List.foldl_cons]
    rw [ih _ (fun f hf => h f (List.mem_cons_of_mem g hf))]
    exact clampField_preserve k g cfg (h g (List.mem_cons_self g rest))

theorem foldl_clampField_spec (fields : List FieldSpec) (cfg : List (String × JsVal))
    (hnd : (fields.map FieldSpec.key).Nodup) (hwf : ∀ f ∈ fields, FieldWF f)
    (f : FieldSpec) (hf : f ∈ fields) (q : ℚ)
    (hq : getA f.key (fields.foldl (fun c g => clampField g c) cfg) = some (JsVal.num q)) :
    (∀ m, f.fmin = some m → m ≤ q) ∧ (∀ bigM, f.fmax = some bigM → q ≤ bigM) := by
  induction fields generalizing cfg with
  | nil => cases hf
  | cons g rest ih =>
    simp only [List.foldl_cons] at hq
    rcases List.mem_cons.mp hf with rfl | hfr
    · simp only [List.map_cons, List.nodup_cons] at hnd
      rw [foldl_clampField_preserve f.key rest (clampField f cfg)
        (fun g2 hg2 => fun hkey => hnd.1 (hkey ▸ List.mem_map_of_mem FieldSpec.key hg2))] at hq
      exact clampField_self f cfg (hwf f (List.mem_cons_self f rest)) q hq
    · simp only [List.map_cons, List.nodup_cons] at hnd
      exact ih (clampField g cfg) hnd.2 (fun f2 hf2 => hwf f2 (List.mem_cons_of_mem g hf2)) hfr hq

/-- Claim C9: `ProcSystem.updateConfig` merges the partial input over each
definition's declared defaults, coerces `enabled` to a boolean, and clamps
every field value of number type to its declared bounds — so after any
configuration update every numeric proc-config field lies within its
declared `[min,max]` bounds, and every definition ends with exactly one
sanitised configuration object (input is sanitised, never rejected). -/
theorem claim_c9 (input : List (String × List (String × JsVal)))
    (d : ProcDefn) (hd : d ∈ procDefns) :
    (∀ f ∈ d.fields, ∀ q,
        getA f.key (updateProcDefCfg d ((getA d.id input).getD [])) = some (JsVal.num q) →
        (∀ m, f.fmin = some m → m ≤ q) ∧ (∀ bigM, f.fmax = some bigM → q ≤ bigM)) ∧
    (∃ b, getA "enabled" (updateProcDefCfg d ((getA d.id input).getD []))
        = some (JsVal.boolV b)) ∧
    getA d.id (procUpdateConfig input)
      = some (updateProcDefCfg d ((getA d.id input).getD [])) := by
  refine ⟨?_, ?_, ?_⟩
  · intro f hf q hq
    unfold updateProcDefCfg at hq
    refine foldl_clampField_spec d.fields _ ?_ ?_ f hf q hq
    · fin_cases hd <;> decide
    · fin_cases hd <;> (intro f2 hf2; fin_cases hf2 <;> norm_num [FieldWF])
  · have hkeys : ∀ f ∈ d.fields, ¬ "enabled" = f.key := by
      fin_cases hd <;> decide
    unfold updateProcDefCfg
    rw [foldl_clampField_preserve "enabled" d.fields _ hkeys, getA_setA_self]
    exact ⟨_, rfl⟩
  · fin_cases hd <;> rfl

/-- Witness for C9: the `energySurge` definition fed an out-of-range chance
(500) and a numeric `enabled` flag. -/
theorem claim_c9_witness :
    (∀ f ∈ (⟨"energySurge",
        [⟨"chance", some 0, some 100⟩, ⟨"energyGain", some 0, none⟩],
        [("enabled", JsVal.boolV true), ("chance", JsVal.num 20),
         ("energyGain", JsVal.num 25)]⟩ : ProcDefn).fields, ∀ q,
        getA f.key (updateProcDefCfg
          ⟨"energySurge",
            [⟨"chance", some 0, some 100⟩, ⟨"energyGain", some 0, none⟩],
            [("enabled", JsVal.boolV true), ("chance", JsVal.num 20),
             ("energyGain", JsVal.num 25)]⟩
          ((getA "energySurge"
            [("energySurge", [("chance", JsVal.num 500), ("enabled", JsVal.num 0)])]).getD []))
          = some (JsVal.num q) →
        (∀ m, f.fmin = some m → m ≤ q) ∧ (∀ bigM, f.fmax = some bigM → q ≤ bigM)) ∧
    (∃ b, getA "enabled" (updateProcDefCfg
          ⟨"energySurge",
            [⟨"chance", some 0, some 100⟩, ⟨"energyGain", some 0, none⟩],
            [("enabled", JsVal.boolV true), ("chance", JsVal.num 20),
             ("energyGain", JsVal.num 25)]⟩
          ((getA "energySurge"
            [("energySurge", [("chance", JsVal.num 500), ("enabled", JsVal.num 0)])]).getD []))
        = some (JsVal.boolV b)) ∧
    getA "energySurge" (procUpdateConfig
        [("energySurge", [("chance", JsVal.num 500), ("enabled", JsVal.num 0)])])
      = some (updateProcDefCfg
          ⟨"energySurge",
            [⟨"chance", some 0, some 100⟩, ⟨"energyGain", some 0, none⟩],
            [("enabled", JsVal.boolV true), ("chance", JsVal.num 20),
             ("energyGain", JsVal.num 25)]⟩
          ((getA "energySurge"
            [("energySurge", [("chance", JsVal.num 500), ("enabled", JsVal.num 0)])]).getD [])) :=
  claim_c9 [("energySurge", [("chance", JsVal.num 500), ("enabled", JsVal.num 0)])]
    ⟨"energySurge",
      [⟨"chance", some 0, some 100⟩, ⟨"energyGain", some 0, none⟩],
      [("enabled", JsVal.boolV true), ("chance", JsVal.num 20), ("energyGain", JsVal.num 25)]⟩
    (by decide)

/-! ### Claim C6 -/

/-! Cooldown/GCD frame lemmas: nothing in the combat phase of a sub-step
touches the cooldown map, and only `stopCombat` writes the global cooldown
(setting it to zero). -/

theorem cdg_addLog (s : Sim) :
    (addLog s).cooldowns = s.cooldowns ∧ (addLog s).globalCooldown = s.globalCooldown :=
  ⟨rfl, rfl⟩

theorem cdg_refillEnergy (a : ℚ) (s : Sim) :
    (refillEnergy a s).cooldowns = s.cooldowns ∧
    (refillEnergy a s).globalCooldown = s.globalCooldown := by
  simp only [refillEnergy, addLog]
  split_ifs <;> exact ⟨rfl, rfl⟩

theorem cdg_applyBuffE (b : Effect) (s : Sim) :
    (applyBuffE b s).cooldowns = s.cooldowns ∧
    (applyBuffE b s).globalCooldown = s.globalCooldown := by
  unfold applyBuffE
  rcases getA b.id s.buffs with _ | old
  · have h2 := runPrim_frame ({b with remaining := b.duration}).onApply
      {s with buffs := setA b.id {b with remaining := b.duration} s.buffs}
    exact ⟨h2.2.2.2.2.2.1, h2.2.2.2.2.1⟩
  · have h1 := runPrim_frame old.onExpire s
    have h2 := runPrim_frame ({b with remaining := b.duration}).onApply
      {runPrim old.onExpire s with
        buffs := setA b.id {b with remaining := b.duration} (runPrim old.onExpire s).buffs}
    exact ⟨h2.2.2.2.2.2.1.trans h1.2.2.2.2.2.1, h2.2.2.2.2.1.trans h1.2.2.2.2.1⟩

theorem cdg_applyDebuffE (b : Effect) (s : Sim) :
    (applyDebuffE b s).cooldowns = s.cooldowns ∧
    (applyDebuffE b s).globalCooldown = s.globalCooldown := by
  unfold applyDebuffE
  rcases getA b.id s.debuffs with _ | old
  · have h2 := runPrim_frame ({b with remaining := b.duration}).onApply
      {s with debuffs := setA b.id {b with remaining := b.duration} s.debuffs}
    exact ⟨h2.2.2.2.2.2.1, h2.2.2.2.2.1⟩
  · have h1 := runPrim_frame old.onExpire s
    have h2 := runPrim_frame ({b with remaining := b.duration}).onApply
      {runPrim old.onExpire s with
        debuffs := setA b.id {b with remaining := b.duration} (runPrim old.onExpire s).debuffs}
    exact ⟨h2.2.2.2.2.2.1.trans h1.2.2.2.2.2.1, h2.2.2.2.2.1.trans h1.2.2.2.2.1⟩

theorem cdg_runPrim_fold (l : List (String × Effect)) (s : Sim) :
    ((l.foldl (fun s p => runPrim p.2.onExpire s) s).cooldowns = s.cooldowns ∧
     (l.foldl (fun s p => runPrim p.2.onExpire s) s).globalCooldown = s.globalCooldown) := by
  induction l generalizing s with
  | nil => exact ⟨rfl, rfl⟩
  | cons p t ih =>
    simp only [List.foldl_cons]
    have h1 := runPrim_frame p.2.onExpire s
    have h2 := ih (runPrim p.2.onExpire s)
    exact ⟨h2.1.trans h1.2.2.2.2.2.1, h2.2.trans h1.2.2.2.2.1⟩

theorem cdg_clearEffects (s : Sim) :
    (clearEffects s).cooldowns = s.cooldowns ∧
    (clearEffects s).globalCooldown = s.globalCooldown := by
  unfold clearEffects
  have h1 := cdg_runPrim_fold s.buffs s
  have h2 := cdg_runPrim_fold
    (s.buffs.foldl (fun s p => runPrim p.2.onExpire s) s).debuffs
    (s.buffs.foldl (fun s p => runPrim p.2.onExpire s) s)
  exact ⟨h2.1.trans h1.1, h2.2.trans h1.2⟩

theorem cdg_stopCombat (s : Sim) :
    (stopCombat s).cooldowns = s.cooldowns ∧
    ((stopCombat s).globalCooldown = s.globalCooldown ∨ (stopCombat s).globalCooldown = 0) := by
  unfold stopCombat
  split_ifs with h
  · exact ⟨rfl, Or.inl rfl⟩
  · have h1 := cdg_clearEffects {s with inCombat := false, globalCooldown := 0}
    exact ⟨h1.1, Or.inr h1.2⟩

theorem cdg_procRoll (enabled cond : Bool) (chance : ℚ) (trigger : Sim → Sim) (s : Sim)
    (htr : ∀ t, (trigger t).cooldowns = t.cooldowns ∧ (trigger t).globalCooldown = t.globalCooldown) :
    (procRoll enabled cond chance trigger s).cooldowns = s.cooldowns ∧
    (procRoll enabled cond chance trigger s).globalCooldown = s.globalCooldown := by
  simp only [procRoll, nextRand]
  split_ifs <;>
    first
      | exact ⟨rfl, rfl⟩
      | exact ⟨(htr _).1, (htr _).2⟩

theorem cdg_energySurgeTrigger (s : Sim) :
    (energySurgeTrigger s).cooldowns = s.cooldowns ∧
    (energySurgeTrigger s).globalCooldown = s.globalCooldown := by
  simp only [energySurgeTrigger]
  split_ifs
  · exact cdg_refillEnergy _ _
  · exact ⟨rfl, rfl⟩

theorem cdg_flurryStrikeTrigger (s : Sim) :
    (flurryStrikeTrigger s).cooldowns = s.cooldowns ∧
    (flurryStrikeTrigger s).globalCooldown = s.globalCooldown := by
  simp only [flurryStrikeTrigger]
  split_ifs
  · exact ⟨rfl, rfl⟩
  · exact cdg_applyBuffE _ _

theorem cdg_overpoweringStrikesTrigger (s : Sim) :
    (overpoweringStrikesTrigger s).cooldowns = s.cooldowns ∧
    (overpoweringStrikesTrigger s).globalCooldown = s.globalCooldown := by
  simp only [overpoweringStrikesTrigger]
  split_ifs
  · exact ⟨rfl, rfl⟩
  · exact cdg_applyBuffE _ _

theorem cdg_criticalInsightTrigger (s : Sim) :
    (criticalInsightTrigger s).cooldowns = s.cooldowns ∧
    (criticalInsightTrigger s).globalCooldown = s.globalCooldown := by
  simp only [criticalInsightTrigger]
  split_ifs
  · exact ⟨rfl, rfl⟩
  · exact cdg_applyBuffE _ _

theorem cdg_shadowRecoveryTrigger (s : Sim) :
    (shadowRecoveryTrigger s).cooldowns = s.cooldowns ∧
    (shadowRecoveryTrigger s).globalCooldown = s.globalCooldown := by
  simp only [shadowRecoveryTrigger]
  split_ifs with h1 h2 h3
  · have ha := cdg_refillEnergy (max 0 s.config.procs.shadowRecovery.energyGain) s
    have hb := cdg_applyBuffE
      (shadowRecoveryBuff (s.config.procs.shadowRecovery.cooldownRatePercent / 100)
        (max 0 s.config.procs.shadowRecovery.duration))
      (refillEnergy (max 0 s.config.procs.shadowRecovery.energyGain) s)
    exact ⟨hb.1.trans ha.1, hb.2.trans ha.2⟩
  · exact cdg_refillEnergy _ _
  · exact cdg_applyBuffE _ _
  · exact ⟨rfl, rfl⟩

theorem cdg_handleEvent (event : String) (ctx : DmgCtx) (s : Sim) :
    (handleEvent event ctx s).cooldowns = s.cooldowns ∧
    (handleEvent event ctx s).globalCooldown = s.globalCooldown := by
  simp only [handleEvent]
  split_ifs
  · exact ⟨rfl, rfl⟩
  · have h1 := cdg_procRoll s.config.procs.energySurge.enabled (!ctx.isDot)
      s.config.procs.energySurge.chance energySurgeTrigger s cdg_energySurgeTrigger
    set s1 := procRoll s.config.procs.energySurge.enabled (!ctx.isDot)
      s.config.procs.energySurge.chance energySurgeTrigger s with hs1
    have h2 := cdg_procRoll s1.config.procs.flurryStrike.enabled (ctx.isCrit && !ctx.isDot)
      s1.config.procs.flurryStrike.chance flurryStrikeTrigger s1 cdg_flurryStrikeTrigger
    set s2 := procRoll s1.config.procs.flurryStrike.enabled (ctx.isCrit && !ctx.isDot)
      s1.config.procs.flurryStrike.chance flurryStrikeTrigger s1 with hs2
    have h3 := cdg_procRoll s2.config.procs.overpoweringStrikes.enabled (!ctx.isAuto && !ctx.isDot)
      s2.config.procs.overpoweringStrikes.chance overpoweringStrikesTrigger s2
      cdg_overpoweringStrikesTrigger
    set s3 := procRoll s2.config.procs.overpoweringStrikes.enabled (!ctx.isAuto && !ctx.isDot)
      s2.config.procs.overpoweringStrikes.chance overpoweringStrikesTrigger s2 with hs3
    have h4 := cdg_procRoll s3.config.procs.criticalInsight.enabled (!ctx.isDot)
      s3.config.procs.criticalInsight.chance criticalInsightTrigger s3 cdg_criticalInsightTrigger
    set s4 := procRoll s3.config.procs.criticalInsight.enabled (!ctx.isDot)
      s3.config.procs.criticalInsight.chance criticalInsightTrigger s3 with hs4
    have h5 := cdg_procRoll s4.config.procs.shadowRecovery.enabled (!ctx.isAuto && !ctx.isDot)
      s4.config.procs.shadowRecovery.chance shadowRecoveryTrigger s4 cdg_shadowRecoveryTrigger
    exact ⟨(h5.1.trans h4.1).trans ((h3.1.trans h2.1).trans h1.1),
           (h5.2.trans h4.2).trans ((h3.2.trans h2.2).trans h1.2)⟩

theorem or_trans_gcd {a b c : ℚ} (h1 : a = b ∨ a = 0) (h2 : b = c) : a = c ∨ a = 0 := by
  rcases h1 with h | h
  · exact Or.inl (h.trans h2)
  · exact Or.inr h

theorem cdg_applyDamage (amount : ℚ) (ctx : DmgCtx) (s : Sim) :
    (applyDamage amount ctx s).cooldowns = s.cooldowns ∧
    ((applyDamage amount ctx s).globalCooldown = s.globalCooldown ∨
     (applyDamage amount ctx s).globalCooldown = 0) := by
  rcases hab : ctx.abilityName with _ | nm <;>
    simp only [applyDamage, hab] <;>
    split_ifs <;>
    first
      | exact ⟨rfl, Or.inl rfl⟩
      | exact ⟨(cdg_handleEvent _ _ _).1, Or.inl (cdg_handleEvent _ _ _).2⟩
      | exact ⟨(cdg_stopCombat _).1.trans (cdg_handleEvent _ _ _).1,
          or_trans_gcd (cdg_stopCombat _).2 (cdg_handleEvent _ _ _).2⟩

theorem eq_or_comp {a b c : ℚ} (h1 : a = b) (h2 : b = c ∨ b = 0) : a = c ∨ a = 0 := by
  rcases h2 with h | h
  · exact Or.inl (h1.trans h)
  · exact Or.inr (h1.trans h)

theorem cdg_runTick (cb : TickCb) (t : Sim) :
    (runTick cb t).cooldowns = t.cooldowns ∧
    ((runTick cb t).globalCooldown = t.globalCooldown ∨ (runTick cb t).globalCooldown = 0) := by
  cases cb with
  | nop => exact ⟨rfl, Or.inl rfl⟩
  | refill a => exact ⟨(cdg_refillEnergy a t).1, Or.inl (cdg_refillEnergy a t).2⟩
  | dot amt nm => exact cdg_applyDamage amt _ t

theorem cdg_stepBuffEntry (delta : ℚ) (t : Sim) (entry : String × Effect) :
    (stepBuffEntry delta t entry).cooldowns = t.cooldowns ∧
    ((stepBuffEntry delta t entry).globalCooldown = t.globalCooldown ∨
     (stepBuffEntry delta t entry).globalCooldown = 0) := by
  simp only [stepBuffEntry]
  rcases heff : effectStep delta entry.2 with ⟨e, fired⟩
  split_ifs <;>
    first
      | exact ⟨rfl, Or.inl rfl⟩
      | exact ⟨(runPrim_frame _ _).2.2.2.2.2.1,
          eq_or_comp (runPrim_frame _ _).2.2.2.2.1 (Or.inl rfl)⟩
      | exact ⟨(cdg_runTick _ _).1, (cdg_runTick _ _).2⟩
      | exact ⟨(runPrim_frame _ _).2.2.2.2.2.1.trans (cdg_runTick _ _).1,
          eq_or_comp (runPrim_frame _ _).2.2.2.2.1 (cdg_runTick _ _).2⟩

theorem cdg_stepDebuffEntry (delta : ℚ) (t : Sim) (entry : String × Effect) :
    (stepDebuffEntry delta t entry).cooldowns = t.cooldowns ∧
    ((stepDebuffEntry delta t entry).globalCooldown = t.globalCooldown ∨
     (stepDebuffEntry delta t entry).globalCooldown = 0) := by
  simp only [stepDebuffEntry]
  rcases heff : effectStep delta entry.2 with ⟨e, fired⟩
  split_ifs <;>
    first
      | exact ⟨rfl, Or.inl rfl⟩
      | exact ⟨(runPrim_frame _ _).2.2.2.2.2.1,
          eq_or_comp (runPrim_frame _ _).2.2.2.2.1 (Or.inl rfl)⟩
      | exact ⟨(cdg_runTick _ _).1, (cdg_runTick _ _).2⟩
      | exact ⟨(runPrim_frame _ _).2.2.2.2.2.1.trans (cdg_runTick _ _).1,
          eq_or_comp (runPrim_frame _ _).2.2.2.2.1 (cdg_runTick _ _).2⟩

theorem cdg_foldl {β : Type} (g : Sim → β → Sim)
    (h : ∀ t b, (g t b).cooldowns = t.cooldowns ∧
      ((g t b).globalCooldown = t.globalCooldown ∨ (g t b).globalCooldown = 0))
    (l : List β) (t : Sim) :
    (l.foldl g t).cooldowns = t.cooldowns ∧
    ((l.foldl g t).globalCooldown = t.globalCooldown ∨ (l.foldl g t).globalCooldown = 0) := by
  induction l generalizing t with
  | nil => exact ⟨rfl, Or.inl rfl⟩
  | cons b bs ih =>
    simp only [List.foldl_cons]
    exact ⟨(ih (g t b)).1.trans (h t b).1,
      by
        rcases (ih (g t b)).2 with h1 | h1
        · exact eq_or_comp h1 (h t b).2
        · exact Or.inr h1⟩

theorem cdg_updateBuffs (delta : ℚ) (t : Sim) :
    (updateBuffs delta t).cooldowns = t.cooldowns ∧
    ((updateBuffs delta t).globalCooldown = t.globalCooldown ∨
     (updateBuffs delta t).globalCooldown = 0) := by
  unfold updateBuffs
  have h1 := cdg_foldl (stepBuffEntry delta) (cdg_stepBuffEntry delta) t.buffs t
  have h2 := cdg_foldl (stepDebuffEntry delta) (cdg_stepDebuffEntry delta)
    (t.buffs.foldl (stepBuffEntry delta) t).debuffs (t.buffs.foldl (stepBuffEntry delta) t)
  refine ⟨h2.1.trans h1.1, ?_⟩
  rcases h2.2 with h | h
  · exact eq_or_comp h h1.2
  · exact Or.inr h

theorem cdg_regenLoop (tickInterval gain : ℚ) (fuel : ℕ) (t : Sim) :
    (regenLoop tickInterval gain fuel t).cooldowns = t.cooldowns ∧
    (regenLoop tickInterval gain fuel t).globalCooldown = t.globalCooldown := by
  induction fuel generalizing t with
  | zero => exact ⟨rfl, rfl⟩
  | succ n ih =>
    simp only [regenLoop]
    split_ifs
    · have ha := cdg_refillEnergy gain
        {t with energyTickProgress := t.energyTickProgress - tickInterval}
      have hb := ih (refillEnergy gain {t with energyTickProgress := t.energyTickProgress - tickInterval})
      exact ⟨hb.1.trans ha.1, hb.2.trans ha.2⟩
    · exact ⟨rfl, rfl⟩

theorem cdg_handleEnergy (delta : ℚ) (t : Sim) :
    (handleEnergy delta t).cooldowns = t.cooldowns ∧
    (handleEnergy delta t).globalCooldown = t.globalCooldown := by
  simp only [handleEnergy]
  exact ⟨(cdg_regenLoop _ _ _ _).1, (cdg_regenLoop _ _ _ _).2⟩

theorem cdg_performWhiteDamage (base : ℚ) (t : Sim) :
    (performWhiteDamage base t).cooldowns = t.cooldowns ∧
    ((performWhiteDamage base t).globalCooldown = t.globalCooldown ∨
     (performWhiteDamage base t).globalCooldown = 0) := by
  simp only [performWhiteDamage, rollHit, rollCrit, nextRand]
  split_ifs <;>
    first
      | exact ⟨rfl, Or.inl rfl⟩
      | exact ⟨(cdg_applyDamage _ _ _).1, (cdg_applyDamage _ _ _).2⟩

theorem cdg_handleAutoAttack (delta : ℚ) (t : Sim) :
    (handleAutoAttack delta t).cooldowns = t.cooldowns ∧
    ((handleAutoAttack delta t).globalCooldown = t.globalCooldown ∨
     (handleAutoAttack delta t).globalCooldown = 0) := by
  simp only [handleAutoAttack, performAutoAttack, rollWeaponDamage, nextRand]
  split_ifs <;>
    first
      | exact ⟨rfl, Or.inl rfl⟩
      | exact ⟨(cdg_performWhiteDamage _ _).1, eq_or_comp rfl (cdg_performWhiteDamage _ _).2⟩

theorem cdg_updateDpsHistory (t : Sim) :
    (updateDpsHistory t).cooldowns = t.cooldowns ∧
    (updateDpsHistory t).globalCooldown = t.globalCooldown := by
  simp only [updateDpsHistory]
  split_ifs <;> exact ⟨rfl, rfl⟩

theorem getA_eq_none_of_not_mem {α : Type} (k : String) (l : List (String × α))
    (h : ¬ k ∈ l.map Prod.fst) : getA k l = none := by
  induction l with
  | nil => rfl
  | cons p t ih =>
    simp only [List.map_cons, List.mem_cons, not_or] at h
    simp only [getA, List.find?_cons]
    have hpk : (p.1 == k) = false := by
      simp only [beq_eq_false_iff_ne, ne_eq]
      exact fun he => h.1 he.symm
    rw [hpk]
    simpa [getA] using ih h.2

theorem filterMap_decay_keys (c : ℚ) (l : List (String × ℚ)) :
    ((l.filterMap (fun p => if p.2 - c ≤ 0 then none else some (p.1, p.2 - c))).map
      Prod.fst).Sublist (l.map Prod.fst) := by
  induction l with
  | nil => simp
  | cons p t ih =>
    simp only [List.filterMap_cons]
    split_ifs
    · simp only [List.map_cons]
      exact ih.cons _
    · simp only [List.map_cons]
      exact ih.cons₂ _

theorem filterMap_decay_get (c : ℚ) (hc : 0 ≤ c) (l : List (String × ℚ))
    (hnd : (l.map Prod.fst).Nodup) (k : String) (v2 : ℚ)
    (h : getA k (l.filterMap
      (fun p => if p.2 - c ≤ 0 then none else some (p.1, p.2 - c))) = some v2) :
    0 < v2 ∧ ∃ v1, getA k l = some v1 ∧ v2 ≤ v1 := by
  induction l with
  | nil => cases h
  | cons p t ih =>
    simp only [List.filterMap_cons] at h
    simp only [List.map_cons, List.nodup_cons] at hnd
    by_cases hpk : (p.1 == k) = true
    · have hknot : ¬ k ∈ t.map Prod.fst := fun hmem => hnd.1 ((eq_of_beq hpk) ▸ hmem)
      split_ifs at h with hcond
      · exfalso
        have hsub := filterMap_decay_keys c t
        have : getA k (t.filterMap
            (fun p => if p.2 - c ≤ 0 then none else some (p.1, p.2 - c))) = none :=
          getA_eq_none_of_not_mem k _ (fun hmem => hknot (hsub.mem hmem))
        rw [this] at h
        cases h
      · simp only [getA, List.find?_cons, hpk, Option.map_some', Option.some.injEq] at h
        subst h
        refine ⟨by linarith [not_le.mp hcond], p.2, ?_, by linarith⟩
        simp [getA, List.find?_cons, hpk]
    · have hpk2 : (p.1 == k) = false := by
        simpa using hpk
      have hrec : getA k (t.filterMap
          (fun p => if p.2 - c ≤ 0 then none else some (p.1, p.2 - c))) = some v2 := by
        split_ifs at h
        · exact h
        · simpa [getA, List.find?_cons, hpk2] using h
      obtain ⟨hv2, v1, hv1, hle⟩ := ih hnd.2 hrec
      exact ⟨hv2, v1, by simpa [getA, List.find?_cons, hpk2] using hv1, hle⟩

theorem subStep_spec (d : ℚ) (s : Sim) (hd : 0 ≤ d) (hg : 0 ≤ s.globalCooldown)
    (hnd : (s.cooldowns.map Prod.fst).Nodup) :
    (subStep d s).globalCooldown ≤ s.globalCooldown ∧
    0 ≤ (subStep d s).globalCooldown ∧
    (∀ id v2, getA id (subStep d s).cooldowns = some v2 →
      0 < v2 ∧ ∃ v1, getA id s.cooldowns = some v1 ∧ v2 ≤ v1) ∧
    ((subStep d s).cooldowns.map Prod.fst).Nodup := by
  have hrate : 0 ≤ d * getCooldownRateMultiplier
      {s with globalCooldown := max 0 (s.globalCooldown - d)} :=
    mul_nonneg hd (le_max_left 0 _)
  simp only [subStep, updateCooldowns]
  split_ifs with hc
  · have hcp : ∀ t : Sim,
        ((updateDpsHistory (handleAutoAttack d (handleEnergy d (updateBuffs d t)))).cooldowns
            = t.cooldowns ∧
         ((updateDpsHistory (handleAutoAttack d (handleEnergy d (updateBuffs d t)))).globalCooldown
            = t.globalCooldown ∨
          (updateDpsHistory (handleAutoAttack d (handleEnergy d (updateBuffs d t)))).globalCooldown
            = 0)) := by
      intro t
      have h1 := cdg_updateBuffs d t
      have h2 := cdg_handleEnergy d (updateBuffs d t)
      have h3 := cdg_handleAutoAttack d (handleEnergy d (updateBuffs d t))
      have h4 := cdg_updateDpsHistory (handleAutoAttack d (handleEnergy d (updateBuffs d t)))
      refine ⟨((h4.1.trans h3.1).trans h2.1).trans h1.1, ?_⟩
      rcases h3.2 with h | h
      · exact eq_or_comp (h4.2.trans (h.trans h2.2)) h1.2
      · exact Or.inr (h4.2.trans h)
    refine ⟨?_, ?_, ?_, ?_⟩
    · rcases (hcp _).2 with h | h
      · rw [h]
        exact max_le hg (by linarith)
      · rw [h]
        exact hg
    · rcases (hcp _).2 with h | h
      · rw [h]
        exact le_max_left 0 _
      · rw [h]
    · intro id v2 hv2
      rw [(hcp _).1] at hv2
      exact filterMap_decay_get _ hrate s.cooldowns hnd id v2 hv2
    · rw [(hcp _).1]
      exact (filterMap_decay_keys _ s.cooldowns).nodup hnd
  · refine ⟨max_le hg (by linarith), le_max_left 0 _, ?_, ?_⟩
    · intro id v2 hv2
      exact filterMap_decay_get _ hrate s.cooldowns hnd id v2 hv2
    · exact (filterMap_decay_keys _ s.cooldowns).nodup hnd

theorem updateLoop_spec (fuel : ℕ) (remaining : ℚ) (s : Sim)
    (hg : 0 ≤ s.globalCooldown) (hnd : (s.cooldowns.map Prod.fst).Nodup)
    (hpos : ∀ id v, getA id s.cooldowns = some v → 0 < v) :
    (updateLoop fuel remaining s).globalCooldown ≤ s.globalCooldown ∧
    0 ≤ (updateLoop fuel remaining s).globalCooldown ∧
    (∀ id v2, getA id (updateLoop fuel remaining s).cooldowns = some v2 →
      0 < v2 ∧ ∃ v1, getA id s.cooldowns = some v1 ∧ v2 ≤ v1) ∧
    ((updateLoop fuel remaining s).cooldowns.map Prod.fst).Nodup := by
  induction fuel generalizing remaining s with
  | zero =>
    exact ⟨le_rfl, hg, fun id v2 hv2 => ⟨hpos id v2 hv2, v2, hv2, le_rfl⟩, hnd⟩
  | succ n ih =>
    simp only [updateLoop]
    split_ifs with hrem
    · have hstep : 0 ≤ min remaining (1/2 : ℚ) :=
        le_min (by linarith) (by norm_num)
      have hss := subStep_spec (min remaining (1/2)) s hstep hg hnd
      have hih := ih (remaining - min remaining (1/2)) (subStep (min remaining (1/2)) s)
        hss.2.1 hss.2.2.2 (fun id v hv => ((hss.2.2.1) id v hv).1)
      refine ⟨hih.1.trans hss.1, hih.2.1, ?_, hih.2.2.2⟩
      intro id v2 hv2
      obtain ⟨hv2pos, vmid, hmid, hle1⟩ := hih.2.2.1 id v2 hv2
      obtain ⟨_, v1, hv1, hle2⟩ := hss.2.2.1 id vmid hmid
      exact ⟨hv2pos, v1, hv1, hle1.trans hle2⟩
    · exact ⟨le_rfl, hg, fun id v2 hv2 => ⟨hpos id v2 hv2, v2, hv2, le_rfl⟩, hnd⟩

theorem update_spec (d : ℚ) (s : Sim)
    (hg : 0 ≤ s.globalCooldown) (hnd : (s.cooldowns.map Prod.fst).Nodup)
    (hpos : ∀ id v, getA id s.cooldowns = some v → 0 < v) :
    (update d s).globalCooldown ≤ s.globalCooldown ∧
    0 ≤ (update d s).globalCooldown ∧
    (∀ id v2, getA id (update d s).cooldowns = some v2 →
      0 < v2 ∧ ∃ v1, getA id s.cooldowns = some v1 ∧ v2 ≤ v1) ∧
    ((update d s).cooldowns.map Prod.fst).Nodup := by
  simp only [update]
  exact updateLoop_spec _ _ s hg hnd hpos

/-- Claim C6: over every sequence of `advance(delta)` calls with
`delta ≤ 0.5` and no cast in between, the global cooldown is monotonically
non-increasing and never negative, and every surviving ability-cooldown
entry traces back to a no-smaller initial entry and is strictly positive —
entries reaching 0 are removed, while the global cooldown is clamped at
exactly 0. -/
theorem claim_c6 (ds : List ℚ) (s : Sim)
    (hds : ∀ d ∈ ds, d ≤ 1/2)
    (hg : 0 ≤ s.globalCooldown)
    (hnd : (s.cooldowns.map Prod.fst).Nodup)
    (hpos : ∀ id v, getA id s.cooldowns = some v → 0 < v) :
    (advanceSeq ds s).globalCooldown ≤ s.globalCooldown ∧
    0 ≤ (advanceSeq ds s).globalCooldown ∧
    ∀ id v2, getA id (advanceSeq ds s).cooldowns = some v2 →
      0 < v2 ∧ ∃ v1, getA id s.cooldowns = some v1 ∧ v2 ≤ v1 := by
  induction ds generalizing s with
  | nil =>
    exact ⟨le_rfl, hg, fun id v2 hv2 => ⟨hpos id v2 hv2, v2, hv2, le_rfl⟩⟩
  | cons d rest ih =>
    simp only [advanceSeq, List.foldl_cons]
    have hu := update_spec d s hg hnd hpos
    have hrec := ih (update d s) (fun d2 hd2 => hds d2 (List.mem_cons_of_mem d hd2))
      hu.2.1 hu.2.2.2 (fun id v hv => (hu.2.2.1 id v hv).1)
    simp only [advanceSeq] at hrec
    refine ⟨hrec.1.trans hu.1, hrec.2.1, ?_⟩
    intro id v2 hv2
    obtain ⟨hv2pos, vmid, hmid, hle1⟩ := hrec.2.2 id v2 hv2
    obtain ⟨_, v1, hv1, hle2⟩ := hu.2.2.1 id vmid hmid
    exact ⟨hv2pos, v1, hv1, hle1.trans hle2⟩

/-- Witness for C6: two half-second frames over a state with one armed
180s cooldown and a 1s global cooldown. -/
theorem claim_c6_witness :
    (advanceSeq [1/2, 1/2]
        {initSim defaultConfig drawsZero with
          cooldowns := [("adrenalineRush", 180)], globalCooldown := 1}).globalCooldown
      ≤ ({initSim defaultConfig drawsZero with
          cooldowns := [("adrenalineRush", 180)], globalCooldown := 1} : Sim).globalCooldown ∧
    0 ≤ (advanceSeq [1/2, 1/2]
        {initSim defaultConfig drawsZero with
          cooldowns := [("adrenalineRush", 180)], globalCooldown := 1}).globalCooldown ∧
    ∀ id v2, getA id (advanceSeq [1/2, 1/2]
        {initSim defaultConfig drawsZero with
          cooldowns := [("adrenalineRush", 180)], globalCooldown := 1}).cooldowns = some v2 →
      0 < v2 ∧ ∃ v1,
        getA id ({initSim defaultConfig drawsZero with
          cooldowns := [("adrenalineRush", 180)], globalCooldown := 1} : Sim).cooldowns
          = some v1 ∧ v2 ≤ v1 :=
  claim_c6 [1/2, 1/2]
    {initSim defaultConfig drawsZero with
      cooldowns := [("adrenalineRush", 180)], globalCooldown := 1}
    (by decide) (by decide) (by decide)
    (by
      intro id v h
      simp only [getA, List.find?_cons, List.find?_nil] at h
      cases hk : (("adrenalineRush" : String) == id) with
      | false =>
        rw [hk] at h
        cases h
      | true =>
        rw [hk] at h
        simp only [Option.map_some', Option.some.injEq] at h
        rw [← h]
        norm_num)

/-! Invariant machinery for resource bounds: `Inv` is preserved by every
mutating engine operation. -/

theorem mem_setA {α : Type} {p : String × α} (k : String) (v : α) (m : List (String × α))
    (h : p ∈ setA k v m) : p = (k, v) ∨ p ∈ m := by
  unfold setA at h
  split_ifs at h with hk
  · obtain ⟨q, hq, hfq⟩ := List.mem_map.mp h
    by_cases hq1 : (q.1 == k) = true
    · rw [if_pos hq1] at hfq
      exact Or.inl hfq.symm
    · rw [if_neg hq1] at hfq
      exact Or.inr (hfq ▸ hq)
  · rcases List.mem_append.mp h with h2 | h2
    · exact Or.inr h2
    · exact Or.inl (List.mem_singleton.mp h2)

theorem inv_of_fields {s t : Sim} (h : Inv s)
    (he : t.energy = s.energy) (hme : t.maxEnergy = s.maxEnergy)
    (hcp : t.comboPoints = s.comboPoints) (hmcp : t.maxComboPoints = s.maxComboPoints)
    (hb : t.buffs = s.buffs) (hd : t.debuffs = s.debuffs) (hc : t.config = s.config) :
    Inv t := by
  unfold Inv EnergyBounds WFEffects at h ⊢
  rw [he, hme, hcp, hmcp, hb, hd, hc]
  exact h

theorem effectStep_onTick (delta : ℚ) (e : Effect) :
    (effectStep delta e).1.onTick = e.onTick := by
  simp only [effectStep]
  rcases e.tickInterval with _ | i
  · rfl
  · dsimp only
    split_ifs <;> rfl

theorem inv_spendEnergy {s : Sim} {a : ℚ} (h : Inv s) (ha : 0 ≤ a) :
    Inv (spendEnergy a s) := by
  obtain ⟨⟨he0, he1, hc0, hc1⟩, hme, hmc, hwe, hwc⟩ := h
  exact ⟨⟨le_max_left _ _, max_le hme (show s.energy - a ≤ s.maxEnergy by linarith), hc0, hc1⟩, hme, hmc, hwe, hwc⟩

theorem inv_refundEnergy {s : Sim} {a : ℚ} (h : Inv s) (ha : 0 ≤ a) :
    Inv (refundEnergy a s) := by
  obtain ⟨⟨he0, he1, hc0, hc1⟩, hme, hmc, hwe, hwc⟩ := h
  exact ⟨⟨le_min hme (by linarith), min_le_left _ _, hc0, hc1⟩, hme, hmc, hwe, hwc⟩

theorem inv_refillEnergy {s : Sim} {a : ℚ} (h : Inv s) (ha : 0 ≤ a) :
    Inv (refillEnergy a s) := by
  obtain ⟨⟨he0, he1, hc0, hc1⟩, hme, hmc, hwe, hwc⟩ := h
  simp only [refillEnergy, addLog]
  split_ifs <;>
    exact ⟨⟨le_min hme (by linarith), min_le_left _ _, hc0, hc1⟩, hme, hmc, hwe, hwc⟩

theorem inv_addComboPoints {s : Sim} {a : ℚ} (h : Inv s) (ha : 0 ≤ a) :
    Inv (addComboPoints a s) := by
  obtain ⟨⟨he0, he1, hc0, hc1⟩, hme, hmc, hwe, hwc⟩ := h
  exact ⟨⟨he0, he1, le_min hmc (by linarith), min_le_left _ _⟩, hme, hmc, hwe, hwc⟩

theorem inv_consumeComboPoints {s : Sim} {a : ℚ} (h : Inv s) (ha : 0 ≤ a) :
    Inv (consumeComboPoints a s) := by
  obtain ⟨⟨he0, he1, hc0, hc1⟩, hme, hmc, hwe, hwc⟩ := h
  exact ⟨⟨he0, he1, le_max_left _ _, max_le hmc (show s.comboPoints - a ≤ s.maxComboPoints by linarith)⟩, hme, hmc, hwe, hwc⟩

theorem inv_runPrim {s : Sim} (cb : PrimCb) (h : Inv s) : Inv (runPrim cb s) := by
  induction cb generalizing s with
  | nop => exact h
  | addMod ch k v => exact h
  | removeMod ch k => exact h
  | seq a b iha ihb => exact ihb (iha h)

theorem inv_applyBuffE {s : Sim} {b : Effect} (h : Inv s) (hb : WFTick b.onTick) :
    Inv (applyBuffE b s) := by
  unfold applyBuffE
  have step : ∀ t : Sim, Inv t → t.buffs = s.buffs → t.debuffs = s.debuffs →
      Inv (runPrim ({b with remaining := b.duration}).onApply
        {t with buffs := setA b.id {b with remaining := b.duration} t.buffs}) := by
    intro t ht htb htd
    refine inv_runPrim _ ?_
    obtain ⟨hen, hme, hmc, hwe, hwc⟩ := ht
    refine ⟨hen, hme, hmc, ⟨?_, hwe.2⟩, hwc⟩
    intro p hp
    rcases mem_setA _ _ _ hp with rfl | hp2
    · exact hb
    · exact hwe.1 p hp2
  rcases getA b.id s.buffs with _ | old
  · exact step s h rfl rfl
  · have h1 := inv_runPrim old.onExpire h
    have hf := runPrim_frame old.onExpire s
    exact step _ h1 hf.2.2.2.2.2.2.1 hf.2.2.2.2.2.2.2.1

theorem inv_applyDebuffE {s : Sim} {b : Effect} (h : Inv s) (hb : WFTick b.onTick) :
    Inv (applyDebuffE b s) := by
  unfold applyDebuffE
  have step : ∀ t : Sim, Inv t → t.buffs = s.buffs → t.debuffs = s.debuffs →
      Inv (runPrim ({b with remaining := b.duration}).onApply
        {t with debuffs := setA b.id {b with remaining := b.duration} t.debuffs}) := by
    intro t ht htb htd
    refine inv_runPrim _ ?_
    obtain ⟨hen, hme, hmc, hwe, hwc⟩ := ht
    refine ⟨hen, hme, hmc, ⟨hwe.1, ?_⟩, hwc⟩
    intro p hp
    rcases mem_setA _ _ _ hp with rfl | hp2
    · exact hb
    · exact hwe.2 p hp2
  rcases getA b.id s.debuffs with _ | old
  · exact step s h rfl rfl
  · have h1 := inv_runPrim old.onExpire h
    have hf := runPrim_frame old.onExpire s
    exact step _ h1 hf.2.2.2.2.2.2.1 hf.2.2.2.2.2.2.2.1

theorem inv_runPrim_fold {s : Sim} (l : List (String × Effect)) (h : Inv s) :
    Inv (l.foldl (fun s p => runPrim p.2.onExpire s) s) := by
  induction l generalizing s with
  | nil => exact h
  | cons p t ih => exact ih (inv_runPrim p.2.onExpire h)

theorem inv_clearEffects {s : Sim} (h : Inv s) : Inv (clearEffects s) := by
  unfold clearEffects
  have h1 := inv_runPrim_fold s.buffs h
  have h2 := inv_runPrim_fold
    (s.buffs.foldl (fun s p => runPrim p.2.onExpire s) s).debuffs h1
  obtain ⟨hen, hme, hmc, hwe, hwc⟩ := h2
  exact ⟨hen, hme, hmc,
    ⟨fun p hp => absurd hp (List.not_mem_nil p), fun p hp => absurd hp (List.not_mem_nil p)⟩, hwc⟩

theorem inv_stopCombat {s : Sim} (h : Inv s) : Inv (stopCombat s) := by
  unfold stopCombat
  split_ifs
  · exact h
  · exact inv_clearEffects h

theorem inv_startCombat {s : Sim} (h : Inv s) : Inv (startCombat s) := by
  unfold startCombat
  split_ifs
  · exact h
  · obtain ⟨⟨he0, he1, hc0, hc1⟩, hme, hmc, hwe, hwc⟩ := h
    exact ⟨⟨hme, le_rfl, le_rfl, hmc⟩, hme, hmc, hwe, hwc⟩

theorem inv_updateDpsHistory {s : Sim} (h : Inv s) : Inv (updateDpsHistory s) := by
  simp only [updateDpsHistory]
  split_ifs <;> exact h

theorem inv_energySurgeTrigger {s : Sim} (h : Inv s) : Inv (energySurgeTrigger s) := by
  simp only [energySurgeTrigger]
  split_ifs
  · exact inv_refillEnergy h (le_max_left 0 _)
  · exact h

theorem inv_flurryStrikeTrigger {s : Sim} (h : Inv s) : Inv (flurryStrikeTrigger s) := by
  simp only [flurryStrikeTrigger]
  split_ifs
  · exact h
  · exact inv_applyBuffE h trivial

theorem inv_overpoweringStrikesTrigger {s : Sim} (h : Inv s) :
    Inv (overpoweringStrikesTrigger s) := by
  simp only [overpoweringStrikesTrigger]
  split_ifs
  · exact h
  · exact inv_applyBuffE h trivial

theorem inv_criticalInsightTrigger {s : Sim} (h : Inv s) : Inv (criticalInsightTrigger s) := by
  simp only [criticalInsightTrigger]
  split_ifs
  · exact h
  · exact inv_applyBuffE h trivial

theorem inv_shadowRecoveryTrigger {s : Sim} (h : Inv s) : Inv (shadowRecoveryTrigger s) := by
  simp only [shadowRecoveryTrigger]
  split_ifs
  · exact inv_applyBuffE (inv_refillEnergy h (le_max_left 0 _)) trivial
  · exact inv_refillEnergy h (le_max_left 0 _)
  · exact inv_applyBuffE h trivial
  · exact h

theorem inv_procRoll {s : Sim} (enabled cond : Bool) (chance : ℚ) (trigger : Sim → Sim)
    (htr : ∀ t, Inv t → Inv (trigger t)) (h : Inv s) :
    Inv (procRoll enabled cond chance trigger s) := by
  simp only [procRoll, nextRand]
  split_ifs <;> first | exact h | exact htr _ h

theorem inv_handleEvent {s : Sim} (event : String) (ctx : DmgCtx) (h : Inv s) :
    Inv (handleEvent event ctx s) := by
  simp only [handleEvent]
  split_ifs
  · exact h
  · exact inv_procRoll _ _ _ _ (fun t => inv_shadowRecoveryTrigger)
      (inv_procRoll _ _ _ _ (fun t => inv_criticalInsightTrigger)
        (inv_procRoll _ _ _ _ (fun t => inv_overpoweringStrikesTrigger)
          (inv_procRoll _ _ _ _ (fun t => inv_flurryStrikeTrigger)
            (inv_procRoll _ _ _ _ (fun t => inv_energySurgeTrigger) h))))

theorem inv_addLog {s : Sim} (h : Inv s) : Inv (addLog s) :=
  inv_of_fields h rfl rfl rfl rfl rfl rfl rfl

theorem inv_reset {s : Sim} (h : Inv s) :
    Inv {s with dummyHealth := s.dummyMaxHealth} :=
  inv_of_fields h rfl rfl rfl rfl rfl rfl rfl

set_option maxHeartbeats 1000000 in
theorem inv_applyDamage {s : Sim} (amount : ℚ) (ctx : DmgCtx) (h : Inv s) :
    Inv (applyDamage amount ctx s) := by
  rcases hab : ctx.abilityName with _ | nm <;>
    simp only [applyDamage, hab] <;>
    split_ifs
  · exact h
  · exact inv_reset (inv_stopCombat (inv_addLog
      (inv_handleEvent _ _ (inv_of_fields h rfl rfl rfl rfl rfl rfl rfl))))
  · exact inv_handleEvent _ _ (inv_of_fields h rfl rfl rfl rfl rfl rfl rfl)
  · exact inv_reset (inv_stopCombat (inv_addLog
      (inv_handleEvent _ _ (inv_of_fields h rfl rfl rfl rfl rfl rfl rfl))))
  · exact inv_handleEvent _ _ (inv_of_fields h rfl rfl rfl rfl rfl rfl rfl)
  · exact h
  · exact inv_reset (inv_stopCombat (inv_addLog
      (inv_handleEvent _ _ (inv_of_fields h rfl rfl rfl rfl rfl rfl rfl))))
  · exact inv_handleEvent _ _ (inv_of_fields h rfl rfl rfl rfl rfl rfl rfl)
  · exact inv_reset (inv_stopCombat (inv_addLog
      (inv_handleEvent _ _ (inv_of_fields h rfl rfl rfl rfl rfl rfl rfl))))
  · exact inv_handleEvent _ _ (inv_of_fields h rfl rfl rfl rfl rfl rfl rfl)

theorem inv_runTick {s : Sim} {cb : TickCb} (h : Inv s) (hwt : WFTick cb) :
    Inv (runTick cb s) := by
  cases cb with
  | nop => exact h
  | refill a => exact inv_refillEnergy h hwt
  | dot amt nm => exact inv_applyDamage amt _ h

theorem inv_stepBuffEntry {t : Sim} (delta : ℚ) (entry : String × Effect)
    (h : Inv t) (hwt : WFTick entry.2.onTick) : Inv (stepBuffEntry delta t entry) := by
  simp only [stepBuffEntry]
  rcases heff : effectStep delta entry.2 with ⟨e, fired⟩
  have het : e.onTick = entry.2.onTick := by
    have := effectStep_onTick delta entry.2
    rw [heff] at this
    exact this
  have hwt2 : WFTick e.onTick := het ▸ hwt
  dsimp only
  split_ifs with hexp hf hf
  · have h2 := inv_runPrim e.onExpire (inv_runTick h hwt2)
    obtain ⟨hen, hme, hmc, hwe, hwc⟩ := h2
    exact ⟨hen, hme, hmc,
      ⟨fun p hp => hwe.1 p (List.mem_of_mem_filter hp), hwe.2⟩, hwc⟩
  · have h2 := inv_runPrim e.onExpire h
    obtain ⟨hen, hme, hmc, hwe, hwc⟩ := h2
    exact ⟨hen, hme, hmc,
      ⟨fun p hp => hwe.1 p (List.mem_of_mem_filter hp), hwe.2⟩, hwc⟩
  · have h1 := inv_runTick h hwt2
    obtain ⟨hen, hme, hmc, hwe, hwc⟩ := h1
    refine ⟨hen, hme, hmc, ⟨?_, hwe.2⟩, hwc⟩
    intro p hp
    rcases mem_setA _ _ _ hp with rfl | hp2
    · exact hwt2
    · exact hwe.1 p hp2
  · obtain ⟨hen, hme, hmc, hwe, hwc⟩ := h
    refine ⟨hen, hme, hmc, ⟨?_, hwe.2⟩, hwc⟩
    intro p hp
    rcases mem_setA _ _ _ hp with rfl | hp2
    · exact hwt2
    · exact hwe.1 p hp2

theorem inv_stepDebuffEntry {t : Sim} (delta : ℚ) (entry : String × Effect)
    (h : Inv t) (hwt : WFTick entry.2.onTick) : Inv (stepDebuffEntry delta t entry) := by
  simp only [stepDebuffEntry]
  rcases heff : effectStep delta entry.2 with ⟨e, fired⟩
  have het : e.onTick = entry.2.onTick := by
    have := effectStep_onTick delta entry.2
    rw [heff] at this
    exact this
  have hwt2 : WFTick e.onTick := het ▸ hwt
  dsimp only
  split_ifs with hexp hf hf
  · have h2 := inv_runPrim e.onExpire (inv_runTick h hwt2)
    obtain ⟨hen, hme, hmc, hwe, hwc⟩ := h2
    exact ⟨hen, hme, hmc,
      ⟨hwe.1, fun p hp => hwe.2 p (List.mem_of_mem_filter hp)⟩, hwc⟩
  · have h2 := inv_runPrim e.onExpire h
    obtain ⟨hen, hme, hmc, hwe, hwc⟩ := h2
    exact ⟨hen, hme, hmc,
      ⟨hwe.1, fun p hp => hwe.2 p (List.mem_of_mem_filter hp)⟩, hwc⟩
  · have h1 := inv_runTick h hwt2
    obtain ⟨hen, hme, hmc, hwe, hwc⟩ := h1
    refine ⟨hen, hme, hmc, ⟨hwe.1, ?_⟩, hwc⟩
    intro p hp
    rcases mem_setA _ _ _ hp with rfl | hp2
    · exact hwt2
    · exact hwe.2 p hp2
  · obtain ⟨hen, hme, hmc, hwe, hwc⟩ := h
    refine ⟨hen, hme, hmc, ⟨hwe.1, ?_⟩, hwc⟩
    intro p hp
    rcases mem_setA _ _ _ hp with rfl | hp2
    · exact hwt2
    · exact hwe.2 p hp2

theorem inv_stepBuff_fold {t : Sim} (delta : ℚ) (l : List (String × Effect))
    (h : Inv t) (hl : ∀ p ∈ l, WFTick p.2.onTick) :
    Inv (l.foldl (stepBuffEntry delta) t) := by
  induction l generalizing t with
  | nil => exact h
  | cons p rest ih =>
    exact ih (inv_stepBuffEntry delta p h (hl p (List.mem_cons_self p rest)))
      (fun q hq => hl q (List.mem_cons_of_mem p hq))

theorem inv_stepDebuff_fold {t : Sim} (delta : ℚ) (l : List (String × Effect))
    (h : Inv t) (hl : ∀ p ∈ l, WFTick p.2.onTick) :
    Inv (l.foldl (stepDebuffEntry delta) t) := by
  induction l generalizing t with
  | nil => exact h
  | cons p rest ih =>
    exact ih (inv_stepDebuffEntry delta p h (hl p (List.mem_cons_self p rest)))
      (fun q hq => hl q (List.mem_cons_of_mem p hq))

theorem inv_updateBuffs {s : Sim} (delta : ℚ) (h : Inv s) : Inv (updateBuffs delta s) := by
  unfold updateBuffs
  have h1 := inv_stepBuff_fold delta s.buffs h h.2.2.2.1.1
  exact inv_stepDebuff_fold delta _ h1 h1.2.2.2.1.2

theorem inv_regenLoop {s : Sim} (tickInterval gain : ℚ) (fuel : ℕ)
    (hgain : 0 ≤ gain) (h : Inv s) : Inv (regenLoop tickInterval gain fuel s) := by
  induction fuel generalizing s with
  | zero => exact h
  | succ n ih =>
    simp only [regenLoop]
    split_ifs
    · exact ih (inv_refillEnergy h hgain)
    · exact h

theorem inv_handleEnergy {s : Sim} (delta : ℚ) (h : Inv s) : Inv (handleEnergy delta s) := by
  have hwc := h.2.2.2.2
  simp only [handleEnergy]
  refine inv_regenLoop _ _ _ ?_ h
  exact mul_nonneg (mul_nonneg hwc.1 (by linarith [hwc.2.1])) (le_max_left 0 _)

theorem inv_nextRand {s : Sim} (h : Inv s) : Inv (nextRand s).2 :=
  inv_of_fields h rfl rfl rfl rfl rfl rfl rfl

theorem inv_rollWeaponDamage {s : Sim} (m : ℚ) (h : Inv s) :
    Inv (rollWeaponDamage m s).2 := by
  unfold rollWeaponDamage
  dsimp only
  split_ifs
  · exact h
  · exact inv_of_fields h rfl rfl rfl rfl rfl rfl rfl

theorem inv_setTimer {s : Sim} (a : ℚ) (h : Inv s) :
    Inv {s with autoAttackTimer := a} :=
  inv_of_fields h rfl rfl rfl rfl rfl rfl rfl

theorem inv_performWhiteDamage {s : Sim} (base : ℚ) (h : Inv s) :
    Inv (performWhiteDamage base s) := by
  unfold performWhiteDamage
  dsimp only
  have h1 : Inv (rollHit s).2 := inv_nextRand h
  have h2 : Inv (rollCrit (rollHit s).2.config.stats.critChance (rollHit s).2).2 :=
    inv_nextRand h1
  split_ifs with hmiss hst hu
  · exact inv_addLog h1
  · exact inv_addLog (inv_addComboPoints (inv_nextRand (inv_applyDamage _ _ h2))
      (by norm_num))
  · exact inv_nextRand (inv_applyDamage _ _ h2)
  · exact inv_applyDamage _ _ h2

theorem inv_performAutoAttack {s : Sim} (h : Inv s) :
    Inv (performAutoAttack s) := by
  unfold performAutoAttack
  dsimp only
  exact inv_performWhiteDamage _ (inv_rollWeaponDamage 1 h)

theorem inv_handleAutoAttack {s : Sim} (delta : ℚ) (h : Inv s) :
    Inv (handleAutoAttack delta s) := by
  unfold handleAutoAttack
  dsimp only
  split_ifs with ht
  · exact inv_setTimer _ (inv_performAutoAttack (inv_setTimer _ h))
  · exact inv_setTimer _ h

theorem inv_subStep {s : Sim} (step : ℚ) (h : Inv s) : Inv (subStep step s) := by
  simp only [subStep, updateCooldowns]
  split_ifs
  · exact inv_updateDpsHistory (inv_handleAutoAttack step
      (inv_handleEnergy step (inv_updateBuffs step h)))
  · exact h

theorem inv_updateLoop {s : Sim} (fuel : ℕ) (remaining : ℚ) (h : Inv s) :
    Inv (updateLoop fuel remaining s) := by
  induction fuel generalizing remaining s with
  | zero => exact h
  | succ n ih =>
    simp only [updateLoop]
    split_ifs
    · exact ih _ (inv_subStep _ h)
    · exact h

theorem inv_update {s : Sim} (delta : ℚ) (h : Inv s) : Inv (update delta s) := by
  simp only [update]
  exact inv_updateLoop _ _ h


theorem inv_triggerGlobalCooldown {s : Sim} (h : Inv s) :
    Inv (triggerGlobalCooldown s) :=
  inv_of_fields h rfl rfl rfl rfl rfl rfl rfl

theorem inv_setCooldown {s : Sim} (id : String) (d : ℚ) (h : Inv s) :
    Inv (setCooldown id d s) :=
  inv_of_fields h rfl rfl rfl rfl rfl rfl rfl

theorem inv_onComboPointsSpent {s : Sim} (a : ℚ) (h : Inv s) :
    Inv (onComboPointsSpent a s) := by
  unfold onComboPointsSpent
  dsimp only
  split_ifs with h0 hrs hpos
  · exact h
  · exact inv_addLog (inv_refillEnergy h (by exact_mod_cast hpos.le))
  · exact h
  · exact h

theorem inv_performYellowDamage {s : Sim} (args : YellowArgs) (h : Inv s)
    (hg : 0 ≤ args.comboPointsGenerated) (hsp : 0 ≤ args.comboPointsSpent) :
    Inv (performYellowDamage args s).2 := by
  unfold performYellowDamage
  dsimp only
  have h1 : Inv (rollHit s).2 := inv_nextRand h
  split_ifs
  · exact inv_addLog h1
  iterate 4
    exact inv_onComboPointsSpent _ (inv_consumeComboPoints
      (inv_addComboPoints (inv_applyDamage _ _ (inv_nextRand h1)) hg) hsp)
  iterate 4
    exact inv_onComboPointsSpent _ (inv_consumeComboPoints
      (inv_applyDamage _ _ (inv_nextRand h1)) hsp)
  iterate 4
    exact inv_addComboPoints (inv_applyDamage _ _ (inv_nextRand h1)) hg
  iterate 4
    exact inv_applyDamage _ _ (inv_nextRand h1)

theorem inv_sinisterStrikeHandler {s : Sim} (h : Inv s) :
    Inv (sinisterStrikeHandler s).2 := by
  unfold sinisterStrikeHandler
  dsimp only
  exact inv_performYellowDamage _ (inv_rollWeaponDamage _ h) (by norm_num) (by norm_num)

theorem inv_backstabHandler {s : Sim} (h : Inv s) :
    Inv (backstabHandler s).2 := by
  unfold backstabHandler
  dsimp only
  exact inv_performYellowDamage _ (inv_rollWeaponDamage _ h) (by norm_num) (by norm_num)

theorem inv_eviscerateHandler {s : Sim} (h : Inv s) :
    Inv (eviscerateHandler s).2 := by
  unfold eviscerateHandler
  dsimp only
  split_ifs with h0
  · exact inv_addLog h
  · exact inv_performYellowDamage _ h (by norm_num) h.1.2.2.1

theorem inv_sliceAndDiceHandler {s : Sim} (h : Inv s) :
    Inv (sliceAndDiceHandler s).2 := by
  unfold sliceAndDiceHandler
  dsimp only
  split_ifs with h0
  · exact inv_addLog h
  · exact inv_addLog (inv_onComboPointsSpent _ (inv_consumeComboPoints
      (inv_applyBuffE h (by trivial)) h.1.2.2.1))

theorem inv_ruptureHandler {s : Sim} (h : Inv s) :
    Inv (ruptureHandler s).2 := by
  unfold ruptureHandler
  dsimp only
  split_ifs with h0
  · exact inv_addLog h
  · exact inv_onComboPointsSpent _ (inv_consumeComboPoints
      (inv_applyDebuffE h (by trivial)) h.1.2.2.1)

theorem inv_hemorrhageHandler {s : Sim} (h : Inv s) :
    Inv (hemorrhageHandler s).2 := by
  unfold hemorrhageHandler
  dsimp only
  split_ifs with hh
  · exact inv_performYellowDamage _ (inv_rollWeaponDamage _ h) (by norm_num) (by norm_num)
  · exact inv_addLog (inv_applyDebuffE
      (inv_performYellowDamage _ (inv_rollWeaponDamage _ h) (by norm_num) (by norm_num))
      (by trivial))

theorem inv_envenomHandler {s : Sim} (h : Inv s) :
    Inv (envenomHandler s).2 := by
  unfold envenomHandler
  dsimp only
  split_ifs with h0 hh
  · exact inv_addLog h
  · exact inv_performYellowDamage _ h (by norm_num) h.1.2.2.1
  · exact inv_addLog (inv_applyBuffE
      (inv_performYellowDamage _ h (by norm_num) h.1.2.2.1) (by trivial))

theorem inv_exposeArmorHandler {s : Sim} (h : Inv s) :
    Inv (exposeArmorHandler s).2 := by
  unfold exposeArmorHandler
  dsimp only
  split_ifs with h0
  · exact inv_addLog h
  · exact inv_addLog (inv_onComboPointsSpent _ (inv_consumeComboPoints
      (inv_applyDebuffE h (by trivial)) h.1.2.2.1))

theorem inv_adrenalineRushHandler {s : Sim} (h : Inv s) :
    Inv (adrenalineRushHandler s).2 := by
  unfold adrenalineRushHandler
  dsimp only
  exact inv_addLog (inv_applyBuffE h (by trivial))

theorem inv_shadowFocusHandler {s : Sim} (h : Inv s) :
    Inv (shadowFocusHandler s).2 := by
  unfold shadowFocusHandler
  dsimp only
  exact inv_addLog (inv_applyBuffE h (by norm_num [WFTick, shadowFocusBuff]))

theorem inv_bladeFlurryHandler {s : Sim} (h : Inv s) :
    Inv (bladeFlurryHandler s).2 := by
  unfold bladeFlurryHandler
  dsimp only
  exact inv_addLog (inv_applyBuffE h (by trivial))

theorem inv_canUse {s : Sim} (ab : AbilityDef) (h : Inv s) :
    Inv (canUse ab s).2 := by
  unfold canUse
  split_ifs <;> first | exact inv_addLog h | exact h

theorem inv_execute {s : Sim} (ab : AbilityDef) (h : Inv s) (hc : 0 ≤ ab.energyCost)
    (hh : ∀ t : Sim, Inv t → Inv (ab.handler t).2) : Inv (execute ab s) := by
  unfold execute
  dsimp only
  have h2 : Inv (ab.handler (spendEnergy ab.energyCost s)).2 :=
    hh _ (inv_spendEnergy h hc)
  split_ifs with hres hcd hgcd hgcd
  · exact inv_refundEnergy h2 hc
  · exact inv_setCooldown _ _ (inv_triggerGlobalCooldown h2)
  · exact inv_setCooldown _ _ h2
  · exact inv_triggerGlobalCooldown h2
  · exact h2

theorem abilityCost_nonneg {ab : AbilityDef} (hab : ab ∈ abilityList) :
    0 ≤ ab.energyCost := by
  fin_cases hab <;> norm_num [sinisterStrike, backstab, eviscerate, sliceAndDice,
    rupture, hemorrhage, envenom, exposeArmor, adrenalineRush, shadowFocus, bladeFlurry]

theorem abilityHandler_inv {ab : AbilityDef} (hab : ab ∈ abilityList) :
    ∀ t : Sim, Inv t → Inv (ab.handler t).2 := by
  fin_cases hab
  · exact fun t ht => inv_sinisterStrikeHandler ht
  · exact fun t ht => inv_backstabHandler ht
  · exact fun t ht => inv_eviscerateHandler ht
  · exact fun t ht => inv_sliceAndDiceHandler ht
  · exact fun t ht => inv_ruptureHandler ht
  · exact fun t ht => inv_hemorrhageHandler ht
  · exact fun t ht => inv_envenomHandler ht
  · exact fun t ht => inv_exposeArmorHandler ht
  · exact fun t ht => inv_adrenalineRushHandler ht
  · exact fun t ht => inv_shadowFocusHandler ht
  · exact fun t ht => inv_bladeFlurryHandler ht

theorem inv_castAbility {s : Sim} (id : String) (h : Inv s) :
    Inv (castAbility id s) := by
  unfold castAbility
  rcases hf : abilityList.find? (fun ab => ab.id == id) with _ | ab
  · rw [hf]
    exact h
  · have hab : ab ∈ abilityList := List.mem_of_find?_eq_some hf
    rw [hf]
    dsimp only
    split_ifs with hcb hok hok
    · exact inv_execute ab (inv_canUse ab (inv_startCombat h))
        (abilityCost_nonneg hab) (abilityHandler_inv hab)
    · exact inv_canUse ab (inv_startCombat h)
    · exact inv_execute ab (inv_canUse ab h)
        (abilityCost_nonneg hab) (abilityHandler_inv hab)
    · exact inv_canUse ab h

theorem inv_updateConfigS {s : Sim} (cfg : Config) (h : Inv s)
    (hw : WFConfig cfg) : Inv (updateConfigS cfg s) := by
  unfold updateConfigS
  dsimp only
  obtain ⟨⟨he0, he1, hc0, hc1⟩, hme, hmc, hwe, hwc⟩ := h
  obtain ⟨hw1, hw2, hw3, hw4⟩ := hw
  split_ifs with hcb
  · exact ⟨⟨hw4, le_refl _, hc0, hc1⟩, hw4, hmc, hwe, hw1, hw2, hw3, hw4⟩
  · exact ⟨⟨le_min he0 hw4, min_le_right _ _, hc0, hc1⟩, hw4, hmc, hwe,
      hw1, hw2, hw3, hw4⟩

theorem inv_runOp (op : EngineOp) (hop : WFOp op) {s : Sim} (h : Inv s) :
    Inv (runOp op s) := by
  cases op
  · exact inv_spendEnergy h hop
  · exact inv_refundEnergy h hop
  · exact inv_refillEnergy h hop
  · exact inv_addComboPoints h hop
  · exact inv_consumeComboPoints h hop
  · exact inv_update _ h
  · exact inv_castAbility _ h
  · exact inv_updateConfigS _ h hop

theorem inv_runOps (ops : List EngineOp) (hwf : ∀ op ∈ ops, WFOp op)
    {s : Sim} (h : Inv s) : Inv (ops.foldl (fun t op => runOp op t) s) := by
  induction ops generalizing s with
  | nil => exact h
  | cons op rest ih =>
    exact ih (fun o ho => hwf o (List.mem_cons_of_mem op ho))
      (inv_runOp op (hwf op (List.mem_cons_self op rest)) h)

theorem inv_initSim_default : Inv (initSim defaultConfig drawsZero) := by
  refine ⟨⟨?_, ?_, ?_, ?_⟩, ?_, ?_, ⟨?_, ?_⟩, ?_, ?_, ?_, ?_⟩ <;>
    first
      | norm_num [initSim, defaultConfig]
      | (intro p hp; exact absurd hp (List.not_mem_nil p))

/-- C7: after every sequence of mutating engine operations (energy
spend/refund/refill, combo-point add/consume, advance, cast, config update)
run from an invariant-satisfying state with the callers' boundary
conditions, energy lies in `[0, maxEnergy]` and combo points lie in
`[0, maxComboPoints]`. -/
theorem claim_c7 (s : Sim) (h : Inv s) (ops : List EngineOp)
    (hwf : ∀ op ∈ ops, WFOp op) :
    EnergyBounds (ops.foldl (fun t op => runOp op t) s) :=
  (inv_runOps ops hwf h).1

/-- C7 witness: a concrete operation sequence from the freshly constructed
simulator. -/
theorem claim_c7_witness :
    EnergyBounds (([EngineOp.cast "sinisterStrike", EngineOp.advance (1/2),
        EngineOp.spend 10, EngineOp.refill 5, EngineOp.addCP 2,
        EngineOp.consumeCP 1, EngineOp.refund 3,
        EngineOp.config defaultConfig] :
      List EngineOp).foldl (fun t op => runOp op t)
      (initSim defaultConfig drawsZero)) :=
  claim_c7 _ inv_initSim_default _ (by
    intro op hop
    fin_cases hop <;> norm_num [WFOp, WFConfig, defaultConfig])

/-! Scenario machinery for the single-cast claim: the proc phase only
raises energy (never past the cap) and leaves health, stats, config and
the draw stream untouched. -/

theorem procStep_refl (s : Sim) : ProcStep s s :=
  ⟨rfl, rfl, rfl, rfl, rfl, fun h => ⟨le_refl _, h⟩⟩

theorem procStep_trans {s t u : Sim} (h1 : ProcStep s t) (h2 : ProcStep t u) :
    ProcStep s u := by
  obtain ⟨a1, b1, c1, d1, e1, f1⟩ := h1
  obtain ⟨a2, b2, c2, d2, e2, f2⟩ := h2
  refine ⟨a2.trans a1, b2.trans b1, c2.trans c1, d2.trans d1, e2.trans e1, ?_⟩
  intro hle
  obtain ⟨g1, g2⟩ := f1 hle
  obtain ⟨g3, g4⟩ := f2 (by rw [a1]; exact g2)
  exact ⟨g1.trans g3, by rw [← a1]; exact g4⟩

theorem procStep_addLog (s : Sim) : ProcStep s (addLog s) :=
  ⟨rfl, rfl, rfl, rfl, rfl, fun h => ⟨le_refl _, h⟩⟩

theorem procStep_refillEnergy {a : ℚ} (s : Sim) (ha : 0 ≤ a) :
    ProcStep s (refillEnergy a s) := by
  unfold refillEnergy
  dsimp only
  split_ifs with hlog
  · exact ⟨rfl, rfl, rfl, rfl, rfl, fun h => ⟨le_min h (by linarith), min_le_left _ _⟩⟩
  · exact ⟨rfl, rfl, rfl, rfl, rfl, fun h => ⟨le_min h (by linarith), min_le_left _ _⟩⟩

theorem procStep_runPrim (cb : PrimCb) (s : Sim) : ProcStep s (runPrim cb s) := by
  obtain ⟨he, hme, _, _, _, _, _, _, hst, _, _, hcf, _, hdh, _, hdr⟩ := runPrim_frame cb s
  exact ⟨hme, hdh, hst, hcf, hdr, fun h => ⟨le_of_eq he.symm, he.le.trans h⟩⟩

theorem procStep_applyBuffE (b : Effect) (s : Sim) : ProcStep s (applyBuffE b s) := by
  unfold applyBuffE
  dsimp only
  rcases getA b.id s.buffs with _ | old
  · dsimp only
    exact procStep_trans (procStep_refl s)
      (procStep_runPrim _ _)
  · dsimp only
    exact procStep_trans
      (procStep_trans (procStep_runPrim old.onExpire s)
        ⟨rfl, rfl, rfl, rfl, rfl, fun h => ⟨le_refl _, h⟩⟩)
      (procStep_runPrim _ _)

theorem procStep_energySurgeTrigger (s : Sim) : ProcStep s (energySurgeTrigger s) := by
  unfold energySurgeTrigger
  dsimp only
  split_ifs with hp
  · exact procStep_refillEnergy s (le_max_left 0 _)
  · exact procStep_refl s

theorem procStep_flurryStrikeTrigger (s : Sim) : ProcStep s (flurryStrikeTrigger s) := by
  unfold flurryStrikeTrigger
  dsimp only
  split_ifs with hp
  · exact procStep_refl s
  · exact procStep_applyBuffE _ s

theorem procStep_overpoweringStrikesTrigger (s : Sim) :
    ProcStep s (overpoweringStrikesTrigger s) := by
  unfold overpoweringStrikesTrigger
  dsimp only
  split_ifs with hp
  · exact procStep_refl s
  · exact procStep_applyBuffE _ s

theorem procStep_criticalInsightTrigger (s : Sim) :
    ProcStep s (criticalInsightTrigger s) := by
  unfold criticalInsightTrigger
  dsimp only
  split_ifs with hp
  · exact procStep_refl s
  · exact procStep_applyBuffE _ s

theorem procStep_shadowRecoveryTrigger (s : Sim) :
    ProcStep s (shadowRecoveryTrigger s) := by
  unfold shadowRecoveryTrigger
  dsimp only
  split_ifs with hp hb hb
  · exact procStep_trans (procStep_refillEnergy s (le_max_left 0 _))
      (procStep_applyBuffE _ _)
  · exact procStep_refillEnergy s (le_max_left 0 _)
  · exact procStep_applyBuffE _ _
  · exact procStep_refl s

theorem procStep_procRoll (enabled cond : Bool) (chance : ℚ) (trigger : Sim → Sim)
    (htr : ∀ t : Sim, ProcStep t (trigger t)) (s : Sim) :
    ProcStep s (procRoll enabled cond chance trigger s) := by
  unfold procRoll nextRand
  dsimp only
  split_ifs with h1 h2 h3 h4
  · exact procStep_refl s
  · exact procStep_refl s
  · exact procStep_refl s
  · exact ⟨rfl, rfl, rfl, rfl, rfl, fun h => ⟨le_refl _, h⟩⟩
  · exact procStep_trans
      (procStep_trans
        (⟨rfl, rfl, rfl, rfl, rfl, fun h => ⟨le_refl _, h⟩⟩ :
          ProcStep s {s with rngIdx := s.rngIdx + 1})
        (htr _))
      (procStep_addLog _)

theorem procStep_handleEvent (ctx : DmgCtx) (s : Sim) :
    ProcStep s (handleEvent "damage" ctx s) := by
  unfold handleEvent
  dsimp only
  exact procStep_trans (procStep_trans (procStep_trans (procStep_trans
    (procStep_procRoll _ _ _ _ procStep_energySurgeTrigger s)
    (procStep_procRoll _ _ _ _ procStep_flurryStrikeTrigger _))
    (procStep_procRoll _ _ _ _ procStep_overpoweringStrikesTrigger _))
    (procStep_procRoll _ _ _ _ procStep_criticalInsightTrigger _))
    (procStep_procRoll _ _ _ _ procStep_shadowRecoveryTrigger _)

theorem procSkipStep_trans {s t u : Sim} (h1 : ProcSkipStep s t)
    (h2 : ProcSkipStep t u) : ProcSkipStep s u :=
  ⟨h2.1.trans h1.1, h2.2.1.trans h1.2.1, h2.2.2.trans h1.2.2⟩

theorem procSkip_procRoll (enabled cond : Bool) (chance : ℚ) (trigger : Sim → Sim)
    (hch : chance ≤ 35) {s : Sim} (hd : ∀ n, 7/20 < s.draws n) :
    ProcSkipStep s (procRoll enabled cond chance trigger s) := by
  unfold procRoll nextRand
  dsimp only
  split_ifs with h1 h2 h3 h4
  · exact ⟨rfl, rfl, rfl⟩
  · exact ⟨rfl, rfl, rfl⟩
  · exact ⟨rfl, rfl, rfl⟩
  · exact ⟨rfl, rfl, rfl⟩
  · exfalso
    have hu := hd s.rngIdx
    push_neg at h4
    linarith

theorem procSkip_handleEvent (ctx : DmgCtx) {s : Sim}
    (hd : ∀ n, 7/20 < s.draws n)
    (hc1 : s.config.procs.energySurge.chance ≤ 35)
    (hc2 : s.config.procs.flurryStrike.chance ≤ 35)
    (hc3 : s.config.procs.overpoweringStrikes.chance ≤ 35)
    (hc4 : s.config.procs.criticalInsight.chance ≤ 35)
    (hc5 : s.config.procs.shadowRecovery.chance ≤ 35) :
    ProcSkipStep s (handleEvent "damage" ctx s) := by
  unfold handleEvent
  dsimp only
  set t1 := procRoll s.config.procs.energySurge.enabled (!ctx.isDot)
    s.config.procs.energySurge.chance energySurgeTrigger s with ht1
  have p1 : ProcSkipStep s t1 := by
    rw [ht1]
    exact procSkip_procRoll _ _ _ _ hc1 hd
  obtain ⟨e1, c1, d1⟩ := p1
  set t2 := procRoll t1.config.procs.flurryStrike.enabled (ctx.isCrit && !ctx.isDot)
    t1.config.procs.flurryStrike.chance flurryStrikeTrigger t1 with ht2
  have p2 : ProcSkipStep t1 t2 := by
    rw [ht2]
    exact procSkip_procRoll _ _ _ _ (by rw [c1]; exact hc2) (by rw [d1]; exact hd)
  obtain ⟨e2, c2, d2⟩ := p2
  set t3 := procRoll t2.config.procs.overpoweringStrikes.enabled (!ctx.isAuto && !ctx.isDot)
    t2.config.procs.overpoweringStrikes.chance overpoweringStrikesTrigger t2 with ht3
  have p3 : ProcSkipStep t2 t3 := by
    rw [ht3]
    exact procSkip_procRoll _ _ _ _ (by rw [c2, c1]; exact hc3) (by rw [d2, d1]; exact hd)
  obtain ⟨e3, c3, d3⟩ := p3
  set t4 := procRoll t3.config.procs.criticalInsight.enabled (!ctx.isDot)
    t3.config.procs.criticalInsight.chance criticalInsightTrigger t3 with ht4
  have p4 : ProcSkipStep t3 t4 := by
    rw [ht4]
    exact procSkip_procRoll _ _ _ _ (by rw [c3, c2, c1]; exact hc4)
      (by rw [d3, d2, d1]; exact hd)
  obtain ⟨e4, c4, d4⟩ := p4
  have p5 : ProcSkipStep t4 (procRoll t4.config.procs.shadowRecovery.enabled
      (!ctx.isAuto && !ctx.isDot) t4.config.procs.shadowRecovery.chance
      shadowRecoveryTrigger t4) :=
    procSkip_procRoll _ _ _ _ (by rw [c4, c3, c2, c1]; exact hc5)
      (by rw [d4, d3, d2, d1]; exact hd)
  exact procSkipStep_trans ⟨e1, c1, d1⟩ (procSkipStep_trans ⟨e2, c2, d2⟩
    (procSkipStep_trans ⟨e3, c3, d3⟩ (procSkipStep_trans ⟨e4, c4, d4⟩ p5)))

theorem roundJS_pos {x : ℚ} (hx : 1/2 ≤ x) : 0 < roundJS x := by
  unfold roundJS
  have h1 : (1 : ℤ) ≤ Rat.floor (x + 1/2) := Rat.le_floor.mpr (by push_cast; linarith)
  linarith

theorem roundJS_cast_le (x : ℚ) : (roundJS x : ℚ) ≤ x + 1/2 := by
  unfold roundJS
  have h1 : Rat.floor (x + 1/2) = ⌊x + 1/2⌋ := rfl
  rw [h1]
  exact Int.floor_le _

theorem procStep_energy_window (ctx : DmgCtx) (t : Sim) {e m : ℚ}
    (he : t.energy = e) (hm : t.maxEnergy = m) (hle : e ≤ m) :
    e ≤ (handleEvent "damage" ctx t).energy ∧
    (handleEvent "damage" ctx t).energy ≤ m := by
  subst he
  subst hm
  exact (procStep_handleEvent ctx t).2.2.2.2.2 hle

theorem procSkip_energy_eq (ctx : DmgCtx) (t : Sim) {e : ℚ} (he : t.energy = e)
    (hd : ∀ n, 7/20 < t.draws n)
    (h1 : t.config.procs.energySurge.chance ≤ 35)
    (h2 : t.config.procs.flurryStrike.chance ≤ 35)
    (h3 : t.config.procs.overpoweringStrikes.chance ≤ 35)
    (h4 : t.config.procs.criticalInsight.chance ≤ 35)
    (h5 : t.config.procs.shadowRecovery.chance ≤ 35) :
    (handleEvent "damage" ctx t).energy = e := by
  subst he
  exact (procSkip_handleEvent ctx hd h1 h2 h3 h4 h5).1

theorem applyDamage_c2 {s : Sim} (amount : ℚ) (ctx : DmgCtx)
    (hpos : 0 < roundJS amount) (hlt : (roundJS amount : ℚ) < s.dummyHealth) :
    (applyDamage amount ctx s).stats.hitCount = s.stats.hitCount + 1 ∧
    (applyDamage amount ctx s).maxEnergy = s.maxEnergy ∧
    (s.energy ≤ s.maxEnergy →
      s.energy ≤ (applyDamage amount ctx s).energy ∧
      (applyDamage amount ctx s).energy ≤ s.maxEnergy) ∧
    ((∀ n, 7/20 < s.draws n) →
      s.config.procs.energySurge.chance ≤ 35 →
      s.config.procs.flurryStrike.chance ≤ 35 →
      s.config.procs.overpoweringStrikes.chance ≤ 35 →
      s.config.procs.criticalInsight.chance ≤ 35 →
      s.config.procs.shadowRecovery.chance ≤ 35 →
      (applyDamage amount ctx s).energy = s.energy) := by
  rcases hab : ctx.abilityName with _ | nm <;>
    simp only [applyDamage, hab] <;>
    split_ifs with h1
  · exfalso; omega
  · exfalso
    rename_i hdef
    rw [(procStep_handleEvent ctx _).2.1] at hdef
    try dsimp only [addLog, incrementAbilityUsage] at hdef
    have h3 := le_max_right (0 : ℚ) (s.dummyHealth - (roundJS amount : ℚ))
    have h4 : ((0:ℤ) : ℚ) < (roundJS amount : ℚ) := by exact_mod_cast hpos
    linarith
  · refine ⟨?_, ?_, fun hle => ?_, fun hd hc1 hc2 hc3 hc4 hc5 => ?_⟩
    · rw [(procStep_handleEvent ctx _).2.2.1]
      try rfl
    · rw [(procStep_handleEvent ctx _).1]
      try rfl
    · apply procStep_energy_window ctx
      · rfl
      · rfl
      · exact hle
    · apply procSkip_energy_eq ctx
      · rfl
      · exact hd
      · exact hc1
      · exact hc2
      · exact hc3
      · exact hc4
      · exact hc5
  · exfalso
    rename_i hdef
    rw [(procStep_handleEvent ctx _).2.1] at hdef
    try dsimp only [addLog, incrementAbilityUsage] at hdef
    have h3 := le_max_right (0 : ℚ) (s.dummyHealth - (roundJS amount : ℚ))
    have h4 : ((0:ℤ) : ℚ) < (roundJS amount : ℚ) := by exact_mod_cast hpos
    linarith
  · refine ⟨?_, ?_, fun hle => ?_, fun hd hc1 hc2 hc3 hc4 hc5 => ?_⟩
    · rw [(procStep_handleEvent ctx _).2.2.1]
      try rfl
    · rw [(procStep_handleEvent ctx _).1]
      try rfl
    · apply procStep_energy_window ctx
      · rfl
      · rfl
      · exact hle
    · apply procSkip_energy_eq ctx
      · rfl
      · exact hd
      · exact hc1
      · exact hc2
      · exact hc3
      · exact hc4
      · exact hc5
  · exfalso; omega
  · exfalso
    rename_i hdef
    rw [(procStep_handleEvent ctx _).2.1] at hdef
    try dsimp only [addLog, incrementAbilityUsage] at hdef
    have h3 := le_max_right (0 : ℚ) (s.dummyHealth - (roundJS amount : ℚ))
    have h4 : ((0:ℤ) : ℚ) < (roundJS amount : ℚ) := by exact_mod_cast hpos
    linarith
  · refine ⟨?_, ?_, fun hle => ?_, fun hd hc1 hc2 hc3 hc4 hc5 => ?_⟩
    · rw [(procStep_handleEvent ctx _).2.2.1]
      try rfl
    · rw [(procStep_handleEvent ctx _).1]
      try rfl
    · apply procStep_energy_window ctx
      · rfl
      · rfl
      · exact hle
    · apply procSkip_energy_eq ctx
      · rfl
      · exact hd
      · exact hc1
      · exact hc2
      · exact hc3
      · exact hc4
      · exact hc5
  · exfalso
    rename_i hdef
    rw [(procStep_handleEvent ctx _).2.1] at hdef
    try dsimp only [addLog, incrementAbilityUsage] at hdef
    have h3 := le_max_right (0 : ℚ) (s.dummyHealth - (roundJS amount : ℚ))
    have h4 : ((0:ℤ) : ℚ) < (roundJS amount : ℚ) := by exact_mod_cast hpos
    linarith
  · refine ⟨?_, ?_, fun hle => ?_, fun hd hc1 hc2 hc3 hc4 hc5 => ?_⟩
    · rw [(procStep_handleEvent ctx _).2.2.1]
      try rfl
    · rw [(procStep_handleEvent ctx _).1]
      try rfl
    · apply procStep_energy_window ctx
      · rfl
      · rfl
      · exact hle
    · apply procSkip_energy_eq ctx
      · rfl
      · exact hd
      · exact hc1
      · exact hc2
      · exact hc3
      · exact hc4
      · exact hc5

theorem c2_dmg_window (b : ℚ) (c : Bool) (t : Sim)
    (harm : getA "exposeArmor" t.debuffs = none)
    (hmul : getDamageMultiplier t = 1)
    (hb1 : 45 ≤ b) (hb2 : b ≤ 400) :
    1/2 ≤ applyDamageModifiers b c t ∧ applyDamageModifiers b c t ≤ 999 := by
  unfold applyDamageModifiers
  dsimp only
  rw [harm, hmul]
  rcases c with _ | _ <;> norm_num <;> constructor <;> linarith

theorem cast_tail_facts (d : ℚ) (ctx : DmgCtx) (t : Sim) (dws : ℕ → ℚ)
    (hd1 : 1/2 ≤ d) (hd2 : d ≤ 999)
    (he : t.energy = 60) (hm : t.maxEnergy = 100) (hhc : t.stats.hitCount = 0)
    (hdh : t.dummyHealth = 1000000) (hdr : t.draws = dws)
    (hc1 : t.config.procs.energySurge.chance ≤ 35)
    (hc2 : t.config.procs.flurryStrike.chance ≤ 35)
    (hc3 : t.config.procs.overpoweringStrikes.chance ≤ 35)
    (hc4 : t.config.procs.criticalInsight.chance ≤ 35)
    (hc5 : t.config.procs.shadowRecovery.chance ≤ 35) :
    (triggerGlobalCooldown (addComboPoints 1 (applyDamage d ctx t))).stats.hitCount = 1 ∧
    60 ≤ (triggerGlobalCooldown (addComboPoints 1 (applyDamage d ctx t))).energy ∧
    (triggerGlobalCooldown (addComboPoints 1 (applyDamage d ctx t))).energy ≤ 100 ∧
    ((∀ n, 7/20 < dws n) →
      (triggerGlobalCooldown (addComboPoints 1 (applyDamage d ctx t))).energy = 60) := by
  have hpos : 0 < roundJS d := roundJS_pos hd1
  have hlt : (roundJS d : ℚ) < t.dummyHealth := by
    rw [hdh]
    have := roundJS_cast_le d
    linarith
  obtain ⟨q1, q2, q3, q4⟩ := applyDamage_c2 d ctx hpos hlt
  have htg : ∀ u : Sim, (triggerGlobalCooldown (addComboPoints 1 u)).energy = u.energy :=
    fun u => rfl
  have htgs : ∀ u : Sim, (triggerGlobalCooldown (addComboPoints 1 u)).stats = u.stats :=
    fun u => rfl
  refine ⟨?_, ?_, ?_, ?_⟩
  · rw [htgs, q1, hhc]
  · rw [htg]
    have hw := (q3 (by rw [he, hm]; norm_num)).1
    rw [he] at hw
    exact hw
  · rw [htg]
    have hw := (q3 (by rw [he, hm]; norm_num)).2
    rw [hm] at hw
    exact hw
  · intro hd
    rw [htg]
    rw [q4 (by rw [hdr]; exact hd) hc1 hc2 hc3 hc4 hc5]
    exact he

set_option maxRecDepth 100000 in
set_option maxHeartbeats 4000000 in
/-- Evaluation of the scenario cast down to its `applyDamage` tail (the
hit roll succeeds since `hitChance = 100` and draws are below 1). -/
theorem c2_cast_eq (draws : ℕ → ℚ) (hwf : ∀ n, 0 ≤ draws n ∧ draws n < 1) :
    castAbility "sinisterStrike" (initSim cfgA draws) = c2Final draws := by
  have e1 : castAbility "sinisterStrike" (initSim cfgA draws) =
      execute sinisterStrike (startCombat (initSim cfgA draws)) := rfl
  rw [e1]
  unfold execute
  dsimp only [sinisterStrike]
  unfold sinisterStrikeHandler performYellowDamage
  dsimp only
  have g1 : (rollHit (rollWeaponDamage (21/20)
      (spendEnergy 40 (startCombat (initSim cfgA draws)))).2).1 = true := by
    have hdr : (rollWeaponDamage (21/20)
        (spendEnergy 40 (startCombat (initSim cfgA draws)))).2.draws = draws := by
      with_unfolding_all rfl
    have hri : (rollWeaponDamage (21/20)
        (spendEnergy 40 (startCombat (initSim cfgA draws)))).2.rngIdx = 1 := by
      with_unfolding_all rfl
    have hhc : (rollWeaponDamage (21/20)
        (spendEnergy 40 (startCombat (initSim cfgA draws)))).2.config.stats.hitChance
        = 100 := by
      with_unfolding_all rfl
    have htb : getTalentHitBonus (rollWeaponDamage (21/20)
        (spendEnergy 40 (startCombat (initSim cfgA draws)))).2 = 0 := by
      unfold getTalentHitBonus
      rw [show (rollWeaponDamage (21/20)
        (spendEnergy 40 (startCombat (initSim cfgA draws)))).2.config.talents.precisionStrikes
          = false from by with_unfolding_all rfl]
      rfl
    show decide ((rollWeaponDamage (21/20)
        (spendEnergy 40 (startCombat (initSim cfgA draws)))).2.draws
      (rollWeaponDamage (21/20)
        (spendEnergy 40 (startCombat (initSim cfgA draws)))).2.rngIdx ≤
      min (max ((rollWeaponDamage (21/20)
        (spendEnergy 40 (startCombat (initSim cfgA draws)))).2.config.stats.hitChance +
        getTalentHitBonus (rollWeaponDamage (21/20)
          (spendEnergy 40 (startCombat (initSim cfgA draws)))).2) 0) 100 / 100) = true
    rw [hdr, hri, hhc, htb]
    have h1 : draws 1 ≤ 1 := (hwf 1).2.le
    exact decide_eq_true (by norm_num; linarith)
  rw [g1]
  norm_num
  unfold c2Final c2Dmg c2Ctx c2Base c2Crit c2M c2S4 c2SP
  rfl

set_option maxRecDepth 100000 in
set_option maxHeartbeats 40000000 in
/-- Amended C2: starting combat with energy 100 and casting Sinister Strike
(cost 40) under the default configuration with `hitChance = 100`, for every
outcome of the random draws, increments `stats.hitCount` by exactly 1 and
leaves energy between 60 and 100 — exactly 60 only when every proc roll
fails (for instance when every draw exceeds 0.35, the largest proc chance);
the energy-refilling procs can push energy above 60, so the spec's
"exactly 60" does not hold for every outcome. -/
theorem claim_c2_amended (draws : ℕ → ℚ) (hwf : ∀ n, 0 ≤ draws n ∧ draws n < 1) :
    (castAbility "sinisterStrike" (initSim cfgA draws)).stats.hitCount = 1 ∧
    60 ≤ (castAbility "sinisterStrike" (initSim cfgA draws)).energy ∧
    (castAbility "sinisterStrike" (initSim cfgA draws)).energy ≤ 100 ∧
    ((∀ n, 7/20 < draws n) →
      (castAbility "sinisterStrike" (initSim cfgA draws)).energy = 60) := by
  have hrw : (rollWeaponDamage (21/20) (c2SP draws)).1
      = (150 + draws 0 * 70) * (21/20) := by with_unfolding_all rfl
  have hap : getAttackPowerContribution (6/5) (rollWeaponDamage (21/20) (c2SP draws)).2
      = 1200 / 14 * (6/5) := by with_unfolding_all rfl
  have harm : getA "exposeArmor" (c2M draws).debuffs = none := by with_unfolding_all rfl
  have hmul : getDamageMultiplier (c2M draws) = 1 := by with_unfolding_all rfl
  have hcfg : (c2M draws).config = cfgA := by with_unfolding_all rfl
  have hbase1 : 45 ≤ c2Base draws := by
    unfold c2Base
    rw [hrw, hap]
    have h0 := hwf 0
    nlinarith [h0.1, h0.2]
  have hbase2 : c2Base draws ≤ 400 := by
    unfold c2Base
    rw [hrw, hap]
    have h0 := hwf 0
    nlinarith [h0.1, h0.2]
  have hwin := c2_dmg_window (c2Base draws) (c2Crit draws) (c2M draws) harm hmul
    hbase1 hbase2
  rw [c2_cast_eq draws hwf]
  unfold c2Final
  refine cast_tail_facts _ _ _ _ ?_ ?_ ?_ ?_ ?_ ?_ ?_ ?_ ?_ ?_ ?_ ?_
  · exact hwin.1
  · exact hwin.2
  · with_unfolding_all rfl
  · with_unfolding_all rfl
  · with_unfolding_all rfl
  · with_unfolding_all rfl
  · with_unfolding_all rfl
  · rw [hcfg]
    norm_num [cfgA, defaultConfig, defaultProcsCfg]
  · rw [hcfg]
    norm_num [cfgA, defaultConfig, defaultProcsCfg]
  · rw [hcfg]
    norm_num [cfgA, defaultConfig, defaultProcsCfg]
  · rw [hcfg]
    norm_num [cfgA, defaultConfig, defaultProcsCfg]
  · rw [hcfg]
    norm_num [cfgA, defaultConfig, defaultProcsCfg]

set_option maxRecDepth 100000 in
set_option maxHeartbeats 4000000 in
/-- Counterexample for C2: with the all-zero draw stream every proc fires;
the Energy Surge and Shadow Recovery refills push energy from 60 back to
the 100 cap, so the cast ends at energy 100, not 60 (the hit count is
still exactly 1). -/
theorem claim_c2_counterexample :
    (castAbility "sinisterStrike" (initSim cfgA drawsZero)).energy = 100 ∧
    ¬ (castAbility "sinisterStrike" (initSim cfgA drawsZero)).energy = 60 ∧
    (castAbility "sinisterStrike" (initSim cfgA drawsZero)).stats.hitCount = 1 := by
  refine ⟨?_, ?_, ?_⟩ <;> decide

/-- Witness for the amended C2 at the all-zero draw stream. -/
theorem claim_c2_amended_witness :
    (∀ n, 0 ≤ drawsZero n ∧ drawsZero n < 1) ∧
    ((castAbility "sinisterStrike" (initSim cfgA drawsZero)).stats.hitCount = 1 ∧
    60 ≤ (castAbility "sinisterStrike" (initSim cfgA drawsZero)).energy ∧
    (castAbility "sinisterStrike" (initSim cfgA drawsZero)).energy ≤ 100 ∧
    ((∀ n, 7/20 < drawsZero n) →
      (castAbility "sinisterStrike" (initSim cfgA drawsZero)).energy = 60)) :=
  ⟨fun n => by norm_num [drawsZero],
   claim_c2_amended drawsZero (fun n => by norm_num [drawsZero])⟩

end PVE
